import Mathlib

/-!
Shallow embedding of the `onc-rpc` codec (ONC RPC / RFC 5531 wire format).

Byte buffers are `List Nat` with each element standing for a `u8`
(values are reduced `% 256` wherever the code reads them as integers);
`u32` values are `Nat` reduced `% 2^32` where the code casts or wraps.

Decoding follows the `&[u8]` / `Cursor` code path
(`RpcMessage::from_bytes` and the `from_cursor` family): a cursor is a
fixed buffer together with an absolute position.  Fallible code returns
an explicit result type; a Rust `panic!` / failed slice-index is the
distinguished outcome `PResult.panics`.
-/

namespace OncRpc

set_option maxRecDepth 16384

/-- The crate's error enum (src/errors.rs `Error`).  The `IOError`
variant's kind/message payload is abstracted away, as no caller of the
codec inspects it. -/
inductive Error where
  | IncompleteMessage (buffer_len : Nat) (expected : Nat)
  | IncompleteHeader
  | Fragmented
  | InvalidMessageType (v : Nat)
  | InvalidReplyType (v : Nat)
  | InvalidReplyStatus (v : Nat)
  | InvalidAuthData
  | InvalidAuthError (v : Nat)
  | InvalidRejectedReplyType (v : Nat)
  | InvalidLength
  | InvalidRpcVersion (v : Nat)
  | InvalidMachineName
  | IOError
  deriving DecidableEq, Repr

/-- Outcome of running a fallible piece of the decoder: `ok`, a returned
`Err(Error)`, or a Rust panic (out-of-bounds slice index / failed
`assert!`). -/
inductive PResult (α : Type) where
  | ok (v : α)
  | err (e : Error)
  | panics
  deriving DecidableEq, Repr

/-- The `?` operator on `Result<_, Error>`, with panics propagated. -/
def PResult.bind {α β : Type} : PResult α → (α → PResult β) → PResult β
  | .ok v, f => f v
  | .err e, _ => .err e
  | .panics, _ => .panics

/-- Big-endian `u32` from four bytes (`byteorder`'s
`read_u32::<BigEndian>` / `u32::from_be_bytes`); each byte is reduced
`% 256` since it models a `u8`. -/
def beU32 (b0 b1 b2 b3 : Nat) : Nat :=
  (b0 % 256) * 2 ^ 24 + (b1 % 256) * 2 ^ 16 + (b2 % 256) * 2 ^ 8 + b3 % 256

/-- The four big-endian bytes of a `u32` (`write_u32::<BigEndian>`);
taking `beBytes n` for `n ≥ 2^32` equals `beBytes (n % 2^32)`, which is
exactly the `as u32` truncation at the write sites. -/
def beBytes (n : Nat) : List Nat :=
  [n / 2 ^ 24 % 256, n / 2 ^ 16 % 256, n / 2 ^ 8 % 256, n % 256]

/-- Reader `Cursor::read_u32::<BigEndian>()` at absolute position `pos`:
four bytes and the advanced position, or the `UnexpectedEof` I/O error
(surfaced as `Error::IOError` through the `From<std::io::Error>` impl). -/
def readU32 (data : List Nat) (pos : Nat) : PResult (Nat × Nat) :=
  match data.drop pos with
  | b0 :: b1 :: b2 :: b3 :: _ => .ok (beU32 b0 b1 b2 b3, pos + 4)
  | _ => .err .IOError

/-- src/opaque.rs `pad_length`: number of XDR fill bytes for a payload
of length `l`. -/
def pad_length (l : Nat) : Nat :=
  if l % 4 = 0 then 0 else 4 - l % 4

/-- src/opaque.rs `impl TryFrom<&mut Cursor<&[u8]>> for Opaque`:
reads the `u32` length prefix, advances the cursor past the padded
payload, and returns `&data[start..end]`.  The source performs no bounds
check before that slice, so when `end` exceeds the buffer the slice
index panics: that case is `PResult.panics`.  Padding bytes are skipped
without being inspected. -/
def Opaque.tryFrom (data : List Nat) (pos : Nat) : PResult (List Nat × Nat) :=
  (readU32 data pos).bind fun (len, p) =>
    if p + len ≤ data.length then
      .ok ((data.drop p).take len, pad_length len + (p + len))
    else
      .panics

/-- Modelled from the spec: `Opaque::from_wire(r, max_len)` is called by
`AuthFlavor::from_cursor` (src/auth/flavor.rs) but its definition is
absent from the sources.  Spec section 4.1: read the `u32` length
prefix; fail `InvalidLength` if the length exceeds `max_len` or the
padded payload exceeds the remaining buffer; otherwise return the
payload view and advance past the padding.  The spec's optional
non-zero-padding rejection is not taken: no revision of the sources
inspects padding and the error enum has no variant for it. -/
def Opaque.from_wire (data : List Nat) (pos : Nat) (max_len : Nat) :
    PResult (List Nat × Nat) :=
  (readU32 data pos).bind fun (len, p) =>
    if len > max_len then .err .InvalidLength
    else if p + len + pad_length len > data.length then .err .InvalidLength
    else .ok ((data.drop p).take len, p + len + pad_length len)

/-- src/auth/unix_params.rs `AuthUnixParams`.  The fixed-capacity `Gids`
array is modelled by its visible elements (every construction path of
`Gids` zero-fills the hidden slots, so `PartialEq` on `Gids` coincides
with equality of the visible lists for all reachable values). -/
structure AuthUnixParams where
  stamp : Nat
  machine_name : List Nat
  uid : Nat
  gid : Nat
  gids : List Nat
  deriving DecidableEq, Repr

/-- Reader for `(0..c).map(|_| r.read_u32()).collect()`: read `count` big-endian
`u32` values in sequence. -/
def readU32s (data : List Nat) (pos : Nat) : Nat → PResult (List Nat × Nat)
  | 0 => .ok ([], pos)
  | n + 1 =>
    (readU32 data pos).bind fun (v, p) =>
      (readU32s data p n).bind fun (vs, p') => .ok (v :: vs, p')

/-- src/auth/unix_params.rs `AuthUnixParams::from_cursor`: stamp,
machine name (via `Opaque::try_from`, capped at `MAX_MACHINE_NAME_LEN
= 255`), uid, gid, gids count (≤ 16, the `0` arm of the source's match
being the `readU32s _ _ 0` case), the gids, and finally the check that
exactly `expected_len` bytes were consumed. -/
def AuthUnixParams.from_cursor (data : List Nat) (pos : Nat) (expected_len : Nat) :
    PResult (AuthUnixParams × Nat) :=
  (readU32 data pos).bind fun (stamp, p1) =>
  (Opaque.tryFrom data p1).bind fun (name, p2) =>
  if name.length > 255 then .err .InvalidLength
  else
    (readU32 data p2).bind fun (uid, p3) =>
    (readU32 data p3).bind fun (gid, p4) =>
    (readU32 data p4).bind fun (gids_count, p5) =>
    if gids_count ≤ 16 then
      (readU32s data p5 gids_count).bind fun (gids, p6) =>
      if p6 - pos ≠ expected_len then .err .InvalidAuthData
      else .ok (⟨stamp, name, uid, gid, gids⟩, p6)
    else .err .InvalidAuthData

/-- src/auth/flavor.rs `AuthFlavor`. -/
inductive AuthFlavor where
  | AuthNone (data : Option (List Nat))
  | AuthUnix (p : AuthUnixParams)
  | AuthShort (data : List Nat)
  | Unknown (id : Nat) (data : List Nat)
  deriving DecidableEq, Repr

/-- src/auth/flavor.rs `AuthFlavor::from_cursor` (with `new_none`,
`new_unix` and `new_short` inlined): dispatch on the `u32`
discriminator; `AUTH_NONE` normalises an empty payload to `none`;
`AUTH_UNIX` checks its declared length against 200 then delegates. -/
def AuthFlavor.from_cursor (data : List Nat) (pos : Nat) : PResult (AuthFlavor × Nat) :=
  (readU32 data pos).bind fun (flavor, p) =>
  match flavor with
  | 0 =>
    (Opaque.from_wire data p 200).bind fun (payload, p') =>
    if payload.isEmpty then .ok (.AuthNone none, p')
    else .ok (.AuthNone (some payload), p')
  | 1 =>
    (readU32 data p).bind fun (len, p') =>
    if len > 200 then .err .InvalidLength
    else
      (AuthUnixParams.from_cursor data p' len).bind fun (params, p'') =>
      .ok (.AuthUnix params, p'')
  | 2 =>
    (Opaque.from_wire data p 200).bind fun (payload, p') =>
    .ok (.AuthShort payload, p')
  | v =>
    (Opaque.from_wire data p 200).bind fun (payload, p') =>
    .ok (.Unknown v payload, p')

/-- src/call_body.rs `CallBody`. -/
structure CallBody where
  program : Nat
  program_version : Nat
  procedure : Nat
  auth_credentials : AuthFlavor
  auth_verifier : AuthFlavor
  payload : List Nat
  deriving DecidableEq, Repr

/-- src/call_body.rs `CallBody::rpc_version`: the accessor returns the
constant 2 (the decoder rejects any other value, and the field is not
stored). -/
def CallBody.rpc_version (_ : CallBody) : Nat := 2

/-- src/call_body.rs `CallBody::from_cursor`: rpc version (must be 2),
three `u32` fields, two auth flavors, then the payload is all remaining
bytes (`&data[start..]`, which does not advance the cursor). -/
def CallBody.from_cursor (data : List Nat) (pos : Nat) : PResult (CallBody × Nat) :=
  (readU32 data pos).bind fun (rpc_version, p0) =>
  if rpc_version ≠ 2 then .err (.InvalidRpcVersion rpc_version)
  else
    (readU32 data p0).bind fun (program, p1) =>
    (readU32 data p1).bind fun (program_version, p2) =>
    (readU32 data p2).bind fun (procedure, p3) =>
    (AuthFlavor.from_cursor data p3).bind fun (auth_credentials, p4) =>
    (AuthFlavor.from_cursor data p4).bind fun (auth_verifier, p5) =>
    .ok (⟨program, program_version, procedure, auth_credentials, auth_verifier,
          data.drop p5⟩, p5)

/-- src/reply/accepted_reply.rs `AcceptedStatus`. -/
inductive AcceptedStatus where
  | Success (payload : List Nat)
  | ProgramUnavailable
  | ProgramMismatch (low high : Nat)
  | ProcedureUnavailable
  | GarbageArgs
  | SystemError
  deriving DecidableEq, Repr

/-- src/reply/accepted_reply.rs `AcceptedStatus::from_cursor` (with
`new_success` inlined: the payload is all remaining bytes and does not
advance the cursor). -/
def AcceptedStatus.from_cursor (data : List Nat) (pos : Nat) :
    PResult (AcceptedStatus × Nat) :=
  (readU32 data pos).bind fun (v, p) =>
  match v with
  | 0 => .ok (.Success (data.drop p), p)
  | 1 => .ok (.ProgramUnavailable, p)
  | 2 =>
    (readU32 data p).bind fun (low, p1) =>
    (readU32 data p1).bind fun (high, p2) =>
    .ok (.ProgramMismatch low high, p2)
  | 3 => .ok (.ProcedureUnavailable, p)
  | 4 => .ok (.GarbageArgs, p)
  | 5 => .ok (.SystemError, p)
  | v => .err (.InvalidReplyStatus v)

/-- src/reply/accepted_reply.rs `AcceptedReply`. -/
structure AcceptedReply where
  auth_verifier : AuthFlavor
  status : AcceptedStatus
  deriving DecidableEq, Repr

/-- src/reply/accepted_reply.rs `AcceptedReply::from_cursor`. -/
def AcceptedReply.from_cursor (data : List Nat) (pos : Nat) :
    PResult (AcceptedReply × Nat) :=
  (AuthFlavor.from_cursor data pos).bind fun (auth_verifier, p1) =>
  (AcceptedStatus.from_cursor data p1).bind fun (status, p2) =>
  .ok (⟨auth_verifier, status⟩, p2)

/-- src/reply/rejected_reply.rs `AuthError`. -/
inductive AuthError where
  | Success
  | BadCredentials
  | RejectedCredentials
  | BadVerifier
  | RejectedVerifier
  | TooWeak
  | InvalidResponseVerifier
  | Failed
  deriving DecidableEq, Repr

/-- src/reply/rejected_reply.rs `AuthError::from_cursor`. -/
def AuthError.from_cursor (data : List Nat) (pos : Nat) : PResult (AuthError × Nat) :=
  (readU32 data pos).bind fun (v, p) =>
  match v with
  | 0 => .ok (.Success, p)
  | 1 => .ok (.BadCredentials, p)
  | 2 => .ok (.RejectedCredentials, p)
  | 3 => .ok (.BadVerifier, p)
  | 4 => .ok (.RejectedVerifier, p)
  | 5 => .ok (.TooWeak, p)
  | 6 => .ok (.InvalidResponseVerifier, p)
  | 7 => .ok (.Failed, p)
  | v => .err (.InvalidAuthError v)

/-- src/reply/rejected_reply.rs `RejectedReply`. -/
inductive RejectedReply where
  | RpcVersionMismatch (low high : Nat)
  | AuthErrorR (e : AuthError)
  deriving DecidableEq, Repr

/-- src/reply/rejected_reply.rs `RejectedReply::from_cursor`. -/
def RejectedReply.from_cursor (data : List Nat) (pos : Nat) :
    PResult (RejectedReply × Nat) :=
  (readU32 data pos).bind fun (v, p) =>
  match v with
  | 0 =>
    (readU32 data p).bind fun (low, p1) =>
    (readU32 data p1).bind fun (high, p2) =>
    .ok (.RpcVersionMismatch low high, p2)
  | 1 =>
    (AuthError.from_cursor data p).bind fun (e, p1) =>
    .ok (.AuthErrorR e, p1)
  | v => .err (.InvalidRejectedReplyType v)

/-- src/reply/reply_body.rs `ReplyBody`. -/
inductive ReplyBody where
  | Accepted (r : AcceptedReply)
  | Denied (r : RejectedReply)
  deriving DecidableEq, Repr

/-- src/reply/reply_body.rs `ReplyBody::from_cursor`. -/
def ReplyBody.from_cursor (data : List Nat) (pos : Nat) : PResult (ReplyBody × Nat) :=
  (readU32 data pos).bind fun (v, p) =>
  match v with
  | 0 =>
    (AcceptedReply.from_cursor data p).bind fun (r, p1) => .ok (.Accepted r, p1)
  | 1 =>
    (RejectedReply.from_cursor data p).bind fun (r, p1) => .ok (.Denied r, p1)
  | v => .err (.InvalidReplyType v)

/-- src/rpc_message.rs `MessageType`. -/
inductive MessageType where
  | Call (b : CallBody)
  | Reply (b : ReplyBody)
  deriving DecidableEq, Repr

/-- src/rpc_message.rs `MessageType::from_cursor`. -/
def MessageType.from_cursor (data : List Nat) (pos : Nat) : PResult (MessageType × Nat) :=
  (readU32 data pos).bind fun (v, p) =>
  match v with
  | 0 => (CallBody.from_cursor data p).bind fun (b, p1) => .ok (.Call b, p1)
  | 1 => (ReplyBody.from_cursor data p).bind fun (b, p1) => .ok (.Reply b, p1)
  | v => .err (.InvalidMessageType v)

/-- src/rpc_message.rs `RpcMessage`. -/
structure RpcMessage where
  xid : Nat
  message_type : MessageType
  deriving DecidableEq, Repr

/-- src/rpc_message.rs `expected_message_len`: needs at least 4 bytes
(`IncompleteHeader`), requires the last-fragment bit (bit 31) to be set
(`Fragmented`), and returns the 31-bit length plus the 4 header bytes.
`header & LAST_FRAGMENT_BIT == 0` is `header < 2^31`, and
`header & !LAST_FRAGMENT_BIT` is `header % 2^31`. -/
def expected_message_len (data : List Nat) : PResult Nat :=
  match data with
  | b0 :: b1 :: b2 :: b3 :: _ =>
    let header := beU32 b0 b1 b2 b3
    if header < 2 ^ 31 then .err .Fragmented
    else .ok (header % 2 ^ 31 + 4)
  | _ => .err .IncompleteHeader

/-- src/rpc_message.rs `unwrap_header`: validate the buffer holds
exactly the declared number of bytes, then strip the 4 header bytes. -/
def unwrap_header (data : List Nat) : PResult (List Nat) :=
  (expected_message_len data).bind fun want =>
  if data.length ≠ want then .err (.IncompleteMessage data.length want)
  else .ok (data.drop 4)

/-! ## Serialised lengths

Exact natural-number lengths; the code computes these in `u32`
arithmetic, so every use site that observes the `u32` value applies
`% 2^32` explicitly. -/

/-- Modelled from the spec: the serialised length of the opaque form
`Opaque::from_user_payload` produces (flavor payloads "serialise their
length prefix internally", src/auth/flavor.rs): 4-byte length prefix,
payload, zero padding; spec section 4.1, `serialised_len = 4 + len +
pad(len)`. -/
def Opaque.user_payload_len (data : List Nat) : Nat :=
  4 + data.length + pad_length data.length

/-- src/auth/unix_params.rs `AuthUnixParams::serialised_len`:
12 (stamp, uid, gid) + padded machine name + its 4-byte length header +
`(gids.len() + 1) * 4`. -/
def AuthUnixParams.serialised_len (p : AuthUnixParams) : Nat :=
  12 + (p.machine_name.length + pad_length p.machine_name.length) + 4 +
    (p.gids.length + 1) * 4

/-- Modelled from the spec: `AuthUnixParams::associated_data_len` is
called by `AuthFlavor` (src/auth/flavor.rs) but absent from
src/auth/unix_params.rs.  The flavor tests pin it down: the 84-byte body
with an empty machine name and 16 gids has `associated_data_len = 76 =
12 + 0 + 64`, and the 15-byte-name, 0-gids body has `27 = 12 + 15 + 0`,
i.e. stamp + uid + gid + raw machine-name bytes + gid values. -/
def AuthUnixParams.associated_data_len (p : AuthUnixParams) : Nat :=
  12 + p.machine_name.length + 4 * p.gids.length

/-- src/auth/flavor.rs `AuthFlavor::id`. -/
def AuthFlavor.id : AuthFlavor → Nat
  | .AuthNone _ => 0
  | .AuthUnix _ => 1
  | .AuthShort _ => 2
  | .Unknown i _ => i

/-- src/auth/flavor.rs `AuthFlavor::associated_data_len`. -/
def AuthFlavor.associated_data_len : AuthFlavor → Nat
  | .AuthNone (some d) => d.length
  | .AuthNone none => 0
  | .AuthUnix p => p.associated_data_len
  | .AuthShort d => d.length
  | .Unknown _ d => d.length

/-- src/auth/flavor.rs `AuthFlavor::serialised_len`: 4-byte
discriminator plus the variant body (a bare 4-byte zero length for
`AuthNone(None)`, 4-byte length plus params for `AuthUnix`, a
length-prefixed opaque otherwise). -/
def AuthFlavor.serialised_len : AuthFlavor → Nat
  | .AuthNone none => 4 + (4 + 0)
  | .AuthUnix p => 4 + (4 + p.serialised_len)
  | .AuthNone (some d) => 4 + Opaque.user_payload_len d
  | .AuthShort d => 4 + Opaque.user_payload_len d
  | .Unknown _ d => 4 + Opaque.user_payload_len d

/-- src/call_body.rs `CallBody::serialised_len`. -/
def CallBody.serialised_len (b : CallBody) : Nat :=
  4 * 4 + b.auth_credentials.serialised_len + b.auth_verifier.serialised_len +
    b.payload.length

/-- src/reply/accepted_reply.rs `AcceptedStatus::serialised_len` (4-byte
discriminator plus the variant body, as in the source's six-arm match). -/
def AcceptedStatus.serialised_len : AcceptedStatus → Nat
  | .Success p => 4 + p.length
  | .ProgramUnavailable => 4 + 0
  | .ProgramMismatch _ _ => 4 + 8
  | .ProcedureUnavailable => 4 + 0
  | .GarbageArgs => 4 + 0
  | .SystemError => 4 + 0

/-- src/reply/accepted_reply.rs `AcceptedReply::serialised_len`. -/
def AcceptedReply.serialised_len (r : AcceptedReply) : Nat :=
  r.auth_verifier.serialised_len + r.status.serialised_len

/-- src/reply/rejected_reply.rs `AuthError::serialised_len`. -/
def AuthError.serialised_len (_ : AuthError) : Nat := 4

/-- src/reply/rejected_reply.rs `RejectedReply::serialised_len`. -/
def RejectedReply.serialised_len : RejectedReply → Nat
  | .RpcVersionMismatch _ _ => 4 + (4 + 4)
  | .AuthErrorR e => 4 + e.serialised_len

/-- src/reply/reply_body.rs `ReplyBody::serialised_len`. -/
def ReplyBody.serialised_len : ReplyBody → Nat
  | .Accepted r => 4 + r.serialised_len
  | .Denied r => 4 + r.serialised_len

/-- src/rpc_message.rs `MessageType::serialised_len` (body plus the
4-byte discriminator). -/
def MessageType.serialised_len : MessageType → Nat
  | .Call b => b.serialised_len + 4
  | .Reply b => b.serialised_len + 4

/-- src/rpc_message.rs `RpcMessage::serialised_len` (+4 xid, +4 fragment
header). -/
def RpcMessage.serialised_len (m : RpcMessage) : Nat :=
  m.message_type.serialised_len + 4 + 4

/-- src/rpc_message.rs `RpcMessage::from_bytes`: strip and validate the
header, read the xid and the message type, then re-check that the
parsed message's `serialised_len()` (a `u32`, hence `% 2^32`) matches
the buffer length. -/
def RpcMessage.from_bytes (buf : List Nat) : PResult RpcMessage :=
  (unwrap_header buf).bind fun data =>
  (readU32 data 0).bind fun (xid, p1) =>
  (MessageType.from_cursor data p1).bind fun (message_type, _) =>
  let msg : RpcMessage := ⟨xid, message_type⟩
  if msg.serialised_len % 2 ^ 32 ≠ buf.length then
    .err (.IncompleteMessage buf.length (msg.serialised_len % 2 ^ 32))
  else .ok msg

/-! ## Encoding

Encoders produce the byte list a non-failing sink receives.  The only
failure points are the message-length guard in
`RpcMessage::serialise_into` (a `std::io::Error`, modelled `WResult.err`)
and the `assert!(associated_data_len <= 200)` in
`AuthFlavor::serialise_into` (a panic).  Bytes a Rust writer emitted
before a panic are unobservable (the buffer is dropped during unwind),
so a panicking encode carries no bytes. -/

/-- Outcome of serialising: the written bytes, the too-large I/O error,
or a panic from a failed `assert!`. -/
inductive WResult where
  | ok (bytes : List Nat)
  | err
  | panics
  deriving DecidableEq, Repr

/-- Sequencing of writers (`?` on `Result<(), std::io::Error>`). -/
def WResult.bind : WResult → (List Nat → WResult) → WResult
  | .ok bs, f => f bs
  | .err, _ => .err
  | .panics, _ => .panics

/-- Modelled from the spec: the bytes `Opaque::from_user_payload(data)
.serialise_into` writes (called in src/auth/flavor.rs, definition absent
from the sources); spec section 4.1 `encode`: `u32` big-endian length,
the raw bytes, then `(4 - len % 4) % 4` zero bytes. -/
def Opaque.user_payload_bytes (data : List Nat) : List Nat :=
  beBytes data.length ++ data ++ List.replicate (pad_length data.length) 0

/-- src/auth/unix_params.rs `AuthUnixParams::serialise_into`: stamp,
machine-name length header, machine name plus zero padding, uid, gid,
gids count, gid values. -/
def AuthUnixParams.serialise_into (p : AuthUnixParams) : List Nat :=
  beBytes p.stamp ++ beBytes p.machine_name.length ++
    (p.machine_name ++ List.replicate (pad_length p.machine_name.length) 0) ++
    beBytes p.uid ++ beBytes p.gid ++ beBytes p.gids.length ++
    (p.gids.map beBytes).flatten

/-- src/auth/flavor.rs `AuthFlavor::serialise_into`: discriminator,
`assert!(associated_data_len() <= 200)` (a panic when violated), then
the variant body; `AuthUnix` writes its params' `serialised_len` (a
`u32`) before the params. -/
def AuthFlavor.serialise_into (f : AuthFlavor) : WResult :=
  if f.associated_data_len > 200 then .panics
  else .ok (beBytes f.id ++
    match f with
    | .AuthNone (some d) => Opaque.user_payload_bytes d
    | .AuthShort d => Opaque.user_payload_bytes d
    | .Unknown _ d => Opaque.user_payload_bytes d
    | .AuthNone none => beBytes 0
    | .AuthUnix p => beBytes p.serialised_len ++ p.serialise_into)

/-- src/call_body.rs `CallBody::serialise_into`: the constant rpc
version 2, three `u32` fields, both auth flavors, payload verbatim. -/
def CallBody.serialise_into (b : CallBody) : WResult :=
  b.auth_credentials.serialise_into.bind fun cred =>
  b.auth_verifier.serialise_into.bind fun verf =>
  .ok (beBytes 2 ++ beBytes b.program ++ beBytes b.program_version ++
    beBytes b.procedure ++ cred ++ verf ++ b.payload)

/-- src/reply/accepted_reply.rs `AcceptedStatus::serialise_into`. -/
def AcceptedStatus.serialise_into : AcceptedStatus → List Nat
  | .Success p => beBytes 0 ++ p
  | .ProgramUnavailable => beBytes 1
  | .ProgramMismatch low high => beBytes 2 ++ beBytes low ++ beBytes high
  | .ProcedureUnavailable => beBytes 3
  | .GarbageArgs => beBytes 4
  | .SystemError => beBytes 5

/-- src/reply/accepted_reply.rs `AcceptedReply::serialise_into`. -/
def AcceptedReply.serialise_into (r : AcceptedReply) : WResult :=
  r.auth_verifier.serialise_into.bind fun verf =>
  .ok (verf ++ r.status.serialise_into)

/-- src/reply/rejected_reply.rs `AuthError::serialise_into` (the wire
discriminator of each variant). -/
def AuthError.wire_id : AuthError → Nat
  | .Success => 0
  | .BadCredentials => 1
  | .RejectedCredentials => 2
  | .BadVerifier => 3
  | .RejectedVerifier => 4
  | .TooWeak => 5
  | .InvalidResponseVerifier => 6
  | .Failed => 7

/-- src/reply/rejected_reply.rs `RejectedReply::serialise_into`. -/
def RejectedReply.serialise_into : RejectedReply → List Nat
  | .RpcVersionMismatch low high => beBytes 0 ++ beBytes low ++ beBytes high
  | .AuthErrorR e => beBytes 1 ++ beBytes e.wire_id

/-- src/reply/reply_body.rs `ReplyBody::serialise_into`. -/
def ReplyBody.serialise_into : ReplyBody → WResult
  | .Accepted r => r.serialise_into.bind fun bs => .ok (beBytes 0 ++ bs)
  | .Denied r => .ok (beBytes 1 ++ r.serialise_into)

/-- src/rpc_message.rs `MessageType::serialise_into`. -/
def MessageType.serialise_into : MessageType → WResult
  | .Call b => b.serialise_into.bind fun bs => .ok (beBytes 0 ++ bs)
  | .Reply b => b.serialise_into.bind fun bs => .ok (beBytes 1 ++ bs)

/-- The fragment-header word `(serialised_len() - 4) | LAST_FRAGMENT_BIT`
in wrapping `u32` arithmetic: `base` is the wrapping subtraction, and
or-ing bit 31 into `base < 2^32` adds `2^31` exactly when the bit is
clear (`base < 2^31`). -/
def headerWord (len : Nat) : Nat :=
  let base := (len % 2 ^ 32 + (2 ^ 32 - 4)) % 2 ^ 32
  if base < 2 ^ 31 then base + 2 ^ 31 else base

/-- src/rpc_message.rs `RpcMessage::serialise_into` (equivalently
`serialise`, which writes into a fresh `Vec` through a non-failing
sink): fail before writing anything when `serialised_len()` (as `u32`)
has the last-fragment bit set, otherwise write header, xid and body. -/
def RpcMessage.serialise (m : RpcMessage) : WResult :=
  if m.serialised_len % 2 ^ 32 ≥ 2 ^ 31 then .err
  else
    m.message_type.serialise_into.bind fun body =>
    .ok (beBytes (headerWord m.serialised_len) ++ beBytes m.xid ++ body)

/-- src/auth/unix_params.rs `AuthUnixParams::gids`: `None` when the
list is empty, otherwise the stored values.  (Named `gids_option` here
because the Lean structure field already carries the source's field
name `gids`.) -/
def AuthUnixParams.gids_option (p : AuthUnixParams) : Option (List Nat) :=
  if p.gids.length = 0 then none else some p.gids

/-! ## Canonical values

`Canonical` describes the values decoding can produce (all `u32` fields
in range, gids within capacity, auth payloads within the 200-byte cap,
`AuthNone` payloads non-empty when present, `Unknown` discriminators
distinct from the three assigned ones).  Encoding such a value and
decoding it back is the identity; the claims name the corresponding
plain-language conditions. -/

def AuthUnixParams.Canonical (p : AuthUnixParams) : Prop :=
  p.stamp < 2 ^ 32 ∧ p.uid < 2 ^ 32 ∧ p.gid < 2 ^ 32 ∧
    p.machine_name.length ≤ 255 ∧ p.gids.length ≤ 16 ∧ ∀ g ∈ p.gids, g < 2 ^ 32

instance (p : AuthUnixParams) : Decidable p.Canonical := by
  unfold AuthUnixParams.Canonical
  exact inferInstance

def AuthFlavor.Canonical : AuthFlavor → Prop
  | .AuthNone none => True
  | .AuthNone (some d) => d ≠ [] ∧ d.length ≤ 200
  | .AuthShort d => d.length ≤ 200
  | .Unknown i d => 2 < i ∧ i < 2 ^ 32 ∧ d.length ≤ 200
  | .AuthUnix p => p.serialised_len ≤ 200 ∧ p.Canonical

instance : (f : AuthFlavor) → Decidable f.Canonical
  | .AuthNone none => by unfold AuthFlavor.Canonical; exact inferInstance
  | .AuthNone (some _) => by unfold AuthFlavor.Canonical; exact inferInstance
  | .AuthShort _ => by unfold AuthFlavor.Canonical; exact inferInstance
  | .Unknown _ _ => by unfold AuthFlavor.Canonical; exact inferInstance
  | .AuthUnix _ => by unfold AuthFlavor.Canonical; exact inferInstance

def CallBody.Canonical (b : CallBody) : Prop :=
  b.program < 2 ^ 32 ∧ b.program_version < 2 ^ 32 ∧ b.procedure < 2 ^ 32 ∧
    b.auth_credentials.Canonical ∧ b.auth_verifier.Canonical

instance (b : CallBody) : Decidable b.Canonical := by
  unfold CallBody.Canonical
  exact inferInstance

def AcceptedStatus.Canonical : AcceptedStatus → Prop
  | .ProgramMismatch low high => low < 2 ^ 32 ∧ high < 2 ^ 32
  | _ => True

instance : (s : AcceptedStatus) → Decidable s.Canonical
  | .Success _ => by unfold AcceptedStatus.Canonical; exact inferInstance
  | .ProgramUnavailable => by unfold AcceptedStatus.Canonical; exact inferInstance
  | .ProgramMismatch _ _ => by unfold AcceptedStatus.Canonical; exact inferInstance
  | .ProcedureUnavailable => by unfold AcceptedStatus.Canonical; exact inferInstance
  | .GarbageArgs => by unfold AcceptedStatus.Canonical; exact inferInstance
  | .SystemError => by unfold AcceptedStatus.Canonical; exact inferInstance

def RejectedReply.Canonical : RejectedReply → Prop
  | .RpcVersionMismatch low high => low < 2 ^ 32 ∧ high < 2 ^ 32
  | .AuthErrorR _ => True

instance : (r : RejectedReply) → Decidable r.Canonical
  | .RpcVersionMismatch _ _ => by unfold RejectedReply.Canonical; exact inferInstance
  | .AuthErrorR _ => by unfold RejectedReply.Canonical; exact inferInstance

def ReplyBody.Canonical : ReplyBody → Prop
  | .Accepted r => r.auth_verifier.Canonical ∧ r.status.Canonical
  | .Denied r => r.Canonical

instance : (r : ReplyBody) → Decidable r.Canonical
  | .Accepted _ => by unfold ReplyBody.Canonical; exact inferInstance
  | .Denied _ => by unfold ReplyBody.Canonical; exact inferInstance

def MessageType.Canonical : MessageType → Prop
  | .Call b => b.Canonical
  | .Reply b => b.Canonical

instance : (mt : MessageType) → Decidable mt.Canonical
  | .Call _ => by unfold MessageType.Canonical; exact inferInstance
  | .Reply _ => by unfold MessageType.Canonical; exact inferInstance

def RpcMessage.Canonical (m : RpcMessage) : Prop :=
  m.xid < 2 ^ 32 ∧ m.message_type.Canonical

instance (m : RpcMessage) : Decidable m.Canonical := by
  unfold RpcMessage.Canonical
  exact inferInstance

/-! ## Auth-data bound (the `assert!` in `AuthFlavor::serialise_into`) -/

/-- Every auth flavor contained in the message has associated data
within the 200-byte bound, so no encoder `assert!` fires. -/
def MessageType.authDataBounded : MessageType → Prop
  | .Call b => b.auth_credentials.associated_data_len ≤ 200 ∧
      b.auth_verifier.associated_data_len ≤ 200
  | .Reply (.Accepted r) => r.auth_verifier.associated_data_len ≤ 200
  | .Reply (.Denied _) => True

instance : (mt : MessageType) → Decidable mt.authDataBounded
  | .Call _ => by unfold MessageType.authDataBounded; exact inferInstance
  | .Reply (.Accepted _) => by unfold MessageType.authDataBounded; exact inferInstance
  | .Reply (.Denied _) => by unfold MessageType.authDataBounded; exact inferInstance

/-- Predicate `MessageType.authDataBounded` lifted to a whole message. -/
def RpcMessage.authDataBounded (m : RpcMessage) : Prop :=
  m.message_type.authDataBounded

instance (m : RpcMessage) : Decidable m.authDataBounded := by
  unfold RpcMessage.authDataBounded
  exact inferInstance

/-! ## Concrete wire examples used by the claims -/

/-- A 92-byte call message whose AUTH_UNIX credentials carry a 1-byte
machine name followed by the non-zero XDR padding bytes 1, 2, 3 (the
verifier carries the same name with zero padding). -/
def exPadBuf : List Nat := [128, 0, 0, 88, 0, 0, 0, 66, 0, 0, 0, 0, 0, 0, 0, 2, 0, 0, 0, 0, 0, 0, 0, 0, 0, 0, 0, 0, 0, 0, 0, 1, 0, 0, 0, 24, 0, 0, 0, 0, 0, 0, 0, 1, 65, 1, 2, 3, 0, 0, 0, 0, 0, 0, 0, 0, 0, 0, 0, 0, 0, 0, 0, 1, 0, 0, 0, 24, 0, 0, 0, 0, 0, 0, 0, 1, 65, 0, 0, 0, 0, 0, 0, 0, 0, 0, 0, 0, 0, 0, 0, 0]

/-- The message `exPadBuf` decodes to. -/
def exPadMsg : RpcMessage :=
  ⟨66, .Call ⟨0, 0, 0, .AuthUnix ⟨0, [65], 0, 0, []⟩, .AuthUnix ⟨0, [65], 0, 0, []⟩, []⟩⟩

/-- Buffer `exPadBuf` with the credentials' machine-name padding normalised to
zeros: the bytes that re-encoding `exPadMsg` produces. -/
def exPadOut : List Nat := [128, 0, 0, 88, 0, 0, 0, 66, 0, 0, 0, 0, 0, 0, 0, 2, 0, 0, 0, 0, 0, 0, 0, 0, 0, 0, 0, 0, 0, 0, 0, 1, 0, 0, 0, 24, 0, 0, 0, 0, 0, 0, 0, 1, 65, 0, 0, 0, 0, 0, 0, 0, 0, 0, 0, 0, 0, 0, 0, 0, 0, 0, 0, 1, 0, 0, 0, 24, 0, 0, 0, 0, 0, 0, 0, 1, 65, 0, 0, 0, 0, 0, 0, 0, 0, 0, 0, 0, 0, 0, 0, 0]

/-- A length-consistent 44-byte call message whose AUTH_UNIX
machine-name length prefix (255) overruns the buffer. -/
def overrunBuf : List Nat := [128, 0, 0, 40, 0, 0, 0, 67, 0, 0, 0, 0, 0, 0, 0, 2, 0, 0, 0, 0, 0, 0, 0, 0, 0, 0, 0, 0, 0, 0, 0, 1, 0, 0, 0, 200, 0, 0, 0, 0, 0, 0, 0, 255]

/-- An AUTH_UNIX flavor block declaring `gids_count = 17` (spec
scenario 6). -/
def gids17Buf : List Nat := [0, 0, 0, 1, 0, 0, 0, 24, 0, 0, 0, 0, 0, 0, 0, 0, 0, 0, 0, 0, 0, 0, 0, 0, 0, 0, 0, 17]

/-- A 16-byte buffer whose header declares a 284-byte body (spec
scenario 5). -/
def shortBuf : List Nat := [128, 0, 1, 28, 38, 94, 192, 253, 0, 0, 0, 0, 0, 0, 0, 2]

/-- A 39-byte fuzz-corpus message whose nested lengths are
self-consistent but total 28 bytes against the declared 39 (the
repository's `test_fuzz_message_too_long_for_type`). -/
def fuzz39Buf : List Nat := [128, 0, 0, 35, 35, 35, 35, 35, 0, 0, 0, 1, 0, 0, 0, 0, 0, 0, 0, 0, 0, 0, 0, 0, 0, 0, 0, 1, 3, 2, 35, 35, 35, 35, 35, 0, 35, 35, 0]

/-- Buffer `shortBuf`'s first 16 bytes, with the last-fragment bit cleared
(spec scenario 3). -/
def fragBuf : List Nat := [0, 0, 1, 28, 38, 94, 192, 253, 0, 0, 0, 0, 0, 0, 0, 2]

/-- A length-consistent call message whose rpc-version field is 3. -/
def ver3Buf : List Nat := [128, 0, 0, 12, 0, 0, 0, 7, 0, 0, 0, 0, 0, 0, 0, 3]

/-- A message with a 201-byte `AuthNone` payload: far below the 2^31
message-size bound but over the 200-byte auth-data cap. -/
def bigAuthMsg : RpcMessage :=
  ⟨0, .Call ⟨0, 0, 0, .AuthNone (some (List.replicate 201 0)), .AuthNone none, []⟩⟩

/-- The AUTH_UNIX parameters of spec scenario 2: stamp 0, empty machine
name, uid 501, gid 20, sixteen gids. -/
def exampleParams : AuthUnixParams :=
  ⟨0, [], 501, 20, [501, 12, 20, 61, 79, 80, 81, 98, 701, 33, 100, 204, 250, 395, 398, 399]⟩

/-- A small canonical call message (spec scenario 1: rpc version 2,
both flavors `AuthNone(None)`, 4-byte payload). -/
def exEchoMsg : RpcMessage :=
  ⟨4242, .Call ⟨100000, 42, 13, .AuthNone none, .AuthNone none, [1, 2, 3, 4]⟩⟩

/-! ## Basic lemmas about the result types and byte-level readers -/

theorem PResult.ok_bind {α β : Type} (a : α) (f : α → PResult β) :
    (PResult.ok a).bind f = f a := rfl

theorem PResult.err_bind {α β : Type} (e : Error) (f : α → PResult β) :
    (PResult.err e).bind f = .err e := rfl

theorem PResult.panics_bind {α β : Type} (f : α → PResult β) :
    (PResult.panics).bind f = .panics := rfl

theorem PResult.bind_eq_ok {α β : Type} {x : PResult α} {f : α → PResult β} {b : β} :
    x.bind f = .ok b ↔ ∃ a, x = .ok a ∧ f a = .ok b := by
  cases x <;> simp [PResult.bind]

theorem beU32_lt (b0 b1 b2 b3 : Nat) : beU32 b0 b1 b2 b3 < 2 ^ 32 := by
  unfold beU32
  have h0 : b0 % 256 < 256 := Nat.mod_lt _ (by norm_num)
  have h1 : b1 % 256 < 256 := Nat.mod_lt _ (by norm_num)
  have h2 : b2 % 256 < 256 := Nat.mod_lt _ (by norm_num)
  have h3 : b3 % 256 < 256 := Nat.mod_lt _ (by norm_num)
  omega

theorem beBytes_length (n : Nat) : (beBytes n).length = 4 := rfl

theorem beU32_beBytes {n : Nat} (h : n < 2 ^ 32) :
    beU32 (n / 2 ^ 24 % 256) (n / 2 ^ 16 % 256) (n / 2 ^ 8 % 256) (n % 256) = n := by
  unfold beU32
  omega

theorem readU32_at (data : List Nat) (p : Nat) (pre rest : List Nat) (n : Nat)
    (hd : data = pre ++ (beBytes n ++ rest)) (hp : p = pre.length) (hn : n < 2 ^ 32) :
    readU32 data p = .ok (n, p + 4) := by
  subst hd hp
  unfold readU32
  rw [List.drop_left]
  simp only [beBytes, List.cons_append, List.nil_append]
  rw [beU32_beBytes hn]

theorem readU32_ok {data : List Nat} {pos v p : Nat}
    (h : readU32 data pos = .ok (v, p)) : v < 2 ^ 32 ∧ p = pos + 4 := by
  unfold readU32 at h
  split at h
  next b0 b1 b2 b3 _ _ =>
    cases h
    exact ⟨beU32_lt b0 b1 b2 b3, rfl⟩
  next => cases h

theorem readU32_err {data : List Nat} {pos : Nat} {e : Error}
    (h : readU32 data pos = .err e) : e = .IOError := by
  unfold readU32 at h
  split at h
  next => cases h
  next => cases h; rfl

theorem readU32_ne_panics (data : List Nat) (pos : Nat) :
    readU32 data pos ≠ .panics := by
  unfold readU32
  split <;> simp

theorem readU32s_ne_panics (data : List Nat) : ∀ (pos n : Nat),
    readU32s data pos n ≠ .panics := by
  intro pos n
  induction n generalizing pos with
  | zero => simp [readU32s]
  | succ k ih =>
    unfold readU32s
    cases h : readU32 data pos with
    | ok vp =>
      obtain ⟨v, p⟩ := vp
      simp only [h, PResult.ok_bind]
      cases h2 : readU32s data p k with
      | ok wp => simp only [h2, PResult.ok_bind]; simp
      | err e => simp only [h2, PResult.err_bind]; simp
      | panics => exact absurd h2 (ih p)
    | err e => simp only [h, PResult.err_bind]; simp
    | panics => exact absurd h (readU32_ne_panics data pos)

theorem readU32s_err {data : List Nat} : ∀ {pos n : Nat} {e : Error},
    readU32s data pos n = .err e → e = .IOError := by
  intro pos n
  induction n generalizing pos with
  | zero => intro e h; simp [readU32s] at h
  | succ k ih =>
    intro e h
    unfold readU32s at h
    cases h1 : readU32 data pos with
    | ok vp =>
      obtain ⟨v, p⟩ := vp
      simp only [h1, PResult.ok_bind] at h
      cases h2 : readU32s data p k with
      | ok wp =>
        obtain ⟨w, p'⟩ := wp
        simp only [h2, PResult.ok_bind] at h
        cases h
      | err e2 =>
        simp only [h2, PResult.err_bind] at h
        cases h
        exact ih h2
      | panics =>
        simp only [h2, PResult.panics_bind] at h
        cases h
    | err e1 =>
      simp only [h1, PResult.err_bind] at h
      cases h
      exact readU32_err h1
    | panics =>
      simp only [h1, PResult.panics_bind] at h
      cases h

/-- Unfolded form of the `readU32s` success case used when chaining. -/
theorem readU32s_at (gs : List Nat) : ∀ (data : List Nat) (p : Nat) (pre rest : List Nat),
    data = pre ++ ((gs.map beBytes).flatten ++ rest) → p = pre.length →
    (∀ g ∈ gs, g < 2 ^ 32) →
    readU32s data p gs.length = .ok (gs, p + 4 * gs.length) := by
  induction gs with
  | nil =>
    intro data p pre rest hd hp _
    simp [readU32s]
  | cons g gs ih =>
    intro data p pre rest hd hp hbound
    have hg : g < 2 ^ 32 := hbound g (by simp)
    have hd' : data = pre ++ (beBytes g ++ ((gs.map beBytes).flatten ++ rest)) := by
      simpa [List.append_assoc] using hd
    have h1 := readU32_at data p pre ((gs.map beBytes).flatten ++ rest) g hd' hp hg
    have hd'' : data = (pre ++ beBytes g) ++ ((gs.map beBytes).flatten ++ rest) := by
      simpa [List.append_assoc] using hd
    have hp' : p + 4 = (pre ++ beBytes g).length := by
      simp [List.length_append, beBytes_length, hp]
    have h2 := ih data (p + 4) (pre ++ beBytes g) rest hd'' hp'
      (fun g hgm => hbound g (by simp [hgm]))
    show readU32s data p (gs.length + 1) = _
    unfold readU32s
    have harith : p + 4 + 4 * gs.length = p + 4 * (gs.length + 1) := by omega
    simp only [h1, PResult.ok_bind, h2, harith, List.length_cons]

/-! ## Opaque-field lemmas -/

theorem from_wire_at (data : List Nat) (p : Nat) (pre rest d : List Nat)
    (hd : data = pre ++ (Opaque.user_payload_bytes d ++ rest)) (hp : p = pre.length)
    (hlen : d.length ≤ 200) :
    Opaque.from_wire data p 200 = .ok (d, p + 4 + d.length + pad_length d.length) := by
  have hlt : d.length < 2 ^ 32 := by omega
  have hd' : data = pre ++ (beBytes d.length ++
      ((d ++ List.replicate (pad_length d.length) 0) ++ rest)) := by
    simpa [Opaque.user_payload_bytes, List.append_assoc] using hd
  have h1 := readU32_at data p pre _ d.length hd' hp hlt
  unfold Opaque.from_wire
  simp only [h1, PResult.ok_bind]
  have hlendata : data.length =
      pre.length + (4 + (d.length + (pad_length d.length + rest.length))) := by
    rw [hd']
    simp [List.length_append, beBytes_length, List.length_replicate]
  rw [if_neg (by omega), if_neg (by omega)]
  have hdrop : data.drop (p + 4) =
      d ++ (List.replicate (pad_length d.length) 0 ++ rest) := by
    rw [hd', hp, ← List.append_assoc]
    have hlen4 : pre.length + 4 = (pre ++ beBytes d.length).length := by
      simp [List.length_append, beBytes_length]
    rw [hlen4, List.drop_left]
    simp [List.append_assoc]
  rw [hdrop, List.take_left]

theorem from_wire_ne_panics (data : List Nat) (pos max_len : Nat) :
    Opaque.from_wire data pos max_len ≠ .panics := by
  unfold Opaque.from_wire
  cases h : readU32 data pos with
  | ok vp =>
    obtain ⟨len, p⟩ := vp
    simp only [h, PResult.ok_bind]
    split
    · simp
    · split <;> simp
  | err e => simp [h, PResult.err_bind]
  | panics => exact absurd h (readU32_ne_panics data pos)

theorem from_wire_ok {data : List Nat} {pos max_len : Nat} {d : List Nat} {p' : Nat}
    (h : Opaque.from_wire data pos max_len = .ok (d, p')) :
    d.length ≤ max_len ∧ p' = pos + 4 + d.length + pad_length d.length := by
  unfold Opaque.from_wire at h
  cases h1 : readU32 data pos with
  | ok vp =>
    obtain ⟨len, p⟩ := vp
    obtain ⟨-, hp⟩ := readU32_ok h1
    simp only [h1, PResult.ok_bind] at h
    split at h
    · cases h
    next hle =>
      split at h
      · cases h
      next hfit =>
        cases h
        have hlen : ((data.drop p).take len).length = len := by
          simp only [List.length_take, List.length_drop]
          omega
        constructor
        · omega
        · rw [hlen]; omega
  | err e => simp only [h1, PResult.err_bind] at h; cases h
  | panics => simp only [h1, PResult.panics_bind] at h; cases h

theorem tryFrom_at (data : List Nat) (p : Nat) (pre rest name padding : List Nat)
    (hd : data = pre ++ ((beBytes name.length ++ (name ++ padding)) ++ rest))
    (hp : p = pre.length) (hn : name.length < 2 ^ 32)
    (hpad : padding.length = pad_length name.length) :
    Opaque.tryFrom data p = .ok (name, pad_length name.length + (p + 4 + name.length)) := by
  have hd' : data = pre ++ (beBytes name.length ++ (name ++ (padding ++ rest))) := by
    simpa [List.append_assoc] using hd
  have h1 := readU32_at data p pre _ name.length hd' hp hn
  unfold Opaque.tryFrom
  simp only [h1, PResult.ok_bind]
  have hlendata : data.length =
      pre.length + (4 + (name.length + (padding.length + rest.length))) := by
    rw [hd']
    simp [List.length_append, beBytes_length]
  rw [if_pos (by omega)]
  have hdrop : data.drop (p + 4) = name ++ (padding ++ rest) := by
    rw [hd', hp, ← List.append_assoc]
    have hlen4 : pre.length + 4 = (pre ++ beBytes name.length).length := by
      simp [List.length_append, beBytes_length]
    rw [hlen4, List.drop_left]
  rw [hdrop, List.take_left]

theorem tryFrom_err {data : List Nat} {pos : Nat} {e : Error}
    (h : Opaque.tryFrom data pos = .err e) : e = .IOError := by
  unfold Opaque.tryFrom at h
  cases h1 : readU32 data pos with
  | ok vp =>
    obtain ⟨len, p⟩ := vp
    simp only [h1, PResult.ok_bind] at h
    split at h <;> cases h
  | err e1 =>
    simp only [h1, PResult.err_bind] at h
    cases h
    exact readU32_err h1
  | panics => simp only [h1, PResult.panics_bind] at h; cases h

theorem tryFrom_ok {data : List Nat} {pos : Nat} {name : List Nat} {p' : Nat}
    (h : Opaque.tryFrom data pos = .ok (name, p')) :
    name.length < 2 ^ 32 ∧ p' = pad_length name.length + (pos + 4 + name.length) := by
  unfold Opaque.tryFrom at h
  cases h1 : readU32 data pos with
  | ok vp =>
    obtain ⟨len, p⟩ := vp
    obtain ⟨hlt, hp⟩ := readU32_ok h1
    simp only [h1, PResult.ok_bind] at h
    split at h
    next hle =>
      cases h
      have hlen : ((data.drop p).take len).length = len := by
        simp only [List.length_take, List.length_drop]
        omega
      rw [hlen]
      exact ⟨by omega, by omega⟩
    · cases h
  | err e => simp only [h1, PResult.err_bind] at h; cases h
  | panics => simp only [h1, PResult.panics_bind] at h; cases h

/-! ## AuthUnixParams round trip -/

theorem gids_bytes_length (gs : List Nat) :
    ((gs.map beBytes).flatten).length = 4 * gs.length := by
  induction gs with
  | nil => simp
  | cons g gs ih =>
    simp only [List.map_cons, List.flatten_cons, List.length_append, beBytes_length, ih,
      List.length_cons]
    omega

theorem AuthUnixParams.serialise_into_length (p : AuthUnixParams) :
    p.serialise_into.length = p.serialised_len := by
  unfold AuthUnixParams.serialise_into AuthUnixParams.serialised_len
  simp only [List.length_append, beBytes_length, List.length_replicate, gids_bytes_length]
  omega

theorem authUnixParams_at (data : List Nat) (p : Nat) (pre rest : List Nat)
    (prm : AuthUnixParams)
    (hd : data = pre ++ (prm.serialise_into ++ rest)) (hp : p = pre.length)
    (hc : prm.Canonical) :
    AuthUnixParams.from_cursor data p prm.serialised_len =
      .ok (prm, p + prm.serialised_len) := by
  obtain ⟨stamp, nm, uid, gid, gs⟩ := prm
  have hc' : stamp < 2 ^ 32 ∧ uid < 2 ^ 32 ∧ gid < 2 ^ 32 ∧
      nm.length ≤ 255 ∧ gs.length ≤ 16 ∧ ∀ g ∈ gs, g < 2 ^ 32 := hc
  obtain ⟨hstamp, huid, hgid, hname, hglen, hgs⟩ := hc'
  simp only [AuthUnixParams.serialise_into] at hd
  -- stamp
  have h1 := readU32_at data p pre (beBytes nm.length ++
      ((nm ++ List.replicate (pad_length nm.length) 0) ++ (beBytes uid ++ (beBytes gid ++
        (beBytes gs.length ++ ((gs.map beBytes).flatten ++ rest))))))
    stamp (by simpa [List.append_assoc] using hd) hp hstamp
  -- machine name
  have h2 := tryFrom_at data (p + 4) (pre ++ beBytes stamp)
    (beBytes uid ++ (beBytes gid ++ (beBytes gs.length ++ ((gs.map beBytes).flatten ++ rest))))
    nm (List.replicate (pad_length nm.length) 0) (by simpa [List.append_assoc] using hd)
    (by simp [List.length_append, beBytes_length, hp]) (by omega)
    (List.length_replicate _ _)
  -- uid
  have h3 := readU32_at data (pad_length nm.length + (p + 4 + 4 + nm.length))
    (pre ++ beBytes stamp ++ beBytes nm.length ++
      (nm ++ List.replicate (pad_length nm.length) 0))
    (beBytes gid ++ (beBytes gs.length ++ ((gs.map beBytes).flatten ++ rest)))
    uid (by simpa [List.append_assoc] using hd)
    (by simp [List.length_append, beBytes_length, List.length_replicate, hp]; omega) huid
  -- gid
  have h4 := readU32_at data (pad_length nm.length + (p + 4 + 4 + nm.length) + 4)
    (pre ++ beBytes stamp ++ beBytes nm.length ++
      (nm ++ List.replicate (pad_length nm.length) 0) ++ beBytes uid)
    (beBytes gs.length ++ ((gs.map beBytes).flatten ++ rest))
    gid (by simpa [List.append_assoc] using hd)
    (by simp [List.length_append, beBytes_length, List.length_replicate, hp]; omega) hgid
  -- gids count
  have h5 := readU32_at data (pad_length nm.length + (p + 4 + 4 + nm.length) + 4 + 4)
    (pre ++ beBytes stamp ++ beBytes nm.length ++
      (nm ++ List.replicate (pad_length nm.length) 0) ++ beBytes uid ++ beBytes gid)
    ((gs.map beBytes).flatten ++ rest)
    gs.length (by simpa [List.append_assoc] using hd)
    (by simp [List.length_append, beBytes_length, List.length_replicate, hp]; omega)
    (by omega)
  -- gids values
  have h6 := readU32s_at gs data (pad_length nm.length + (p + 4 + 4 + nm.length) + 4 + 4 + 4)
    (pre ++ beBytes stamp ++ beBytes nm.length ++
      (nm ++ List.replicate (pad_length nm.length) 0) ++ beBytes uid ++ beBytes gid ++
      beBytes gs.length)
    rest (by simpa [List.append_assoc] using hd)
    (by simp [List.length_append, beBytes_length, List.length_replicate, hp]; omega) hgs
  unfold AuthUnixParams.from_cursor
  simp only [h1, PResult.ok_bind, h2, if_neg (by omega : ¬ nm.length > 255), h3, h4, h5,
    if_pos hglen, h6]
  rw [if_neg]
  · have heq : pad_length nm.length + (p + 4 + 4 + nm.length) + 4 + 4 + 4 + 4 * gs.length =
        p + AuthUnixParams.serialised_len ⟨stamp, nm, uid, gid, gs⟩ := by
      unfold AuthUnixParams.serialised_len
      dsimp only
      omega
    rw [heq]
  · unfold AuthUnixParams.serialised_len
    dsimp only
    omega

/-! ## AuthFlavor round trip -/

theorem authFlavor_encode_decode (f : AuthFlavor) (hc : f.Canonical) :
    ∃ w, f.serialise_into = .ok w ∧ w.length = f.serialised_len ∧
      ∀ (data : List Nat) (p : Nat) (pre rest : List Nat),
        data = pre ++ (w ++ rest) → p = pre.length →
        AuthFlavor.from_cursor data p = .ok (f, p + f.serialised_len) := by
  cases f with
  | AuthNone od =>
    cases od with
    | none =>
      refine ⟨beBytes 0 ++ beBytes 0, ?_, ?_, ?_⟩
      · unfold AuthFlavor.serialise_into
        rw [if_neg (by simp [AuthFlavor.associated_data_len])]
        rfl
      · simp [AuthFlavor.serialised_len, List.length_append, beBytes_length]
      · intro data p pre rest hd hp
        have h1 := readU32_at data p pre (beBytes 0 ++ rest) 0
          (by simpa [List.append_assoc] using hd) hp (by norm_num)
        have h2 := from_wire_at data (p + 4) (pre ++ beBytes 0) rest []
          (by simpa [Opaque.user_payload_bytes, pad_length, List.append_assoc] using hd)
          (by simp [List.length_append, beBytes_length, hp]) (by simp)
        unfold AuthFlavor.from_cursor
        simp only [h1, PResult.ok_bind, h2, List.isEmpty_nil, if_pos]
        unfold AuthFlavor.serialised_len
        norm_num
        rfl
    | some d =>
      have hc' : d ≠ [] ∧ d.length ≤ 200 := hc
      obtain ⟨hne, hlen⟩ := hc'
      refine ⟨beBytes 0 ++ Opaque.user_payload_bytes d, ?_, ?_, ?_⟩
      · unfold AuthFlavor.serialise_into
        rw [if_neg (by simp [AuthFlavor.associated_data_len]; omega)]
        rfl
      · simp [AuthFlavor.serialised_len, List.length_append, beBytes_length,
          Opaque.user_payload_bytes, Opaque.user_payload_len, List.length_replicate]
        omega
      · intro data p pre rest hd hp
        have h1 := readU32_at data p pre (Opaque.user_payload_bytes d ++ rest) 0
          (by simpa [List.append_assoc] using hd) hp (by norm_num)
        have h2 := from_wire_at data (p + 4) (pre ++ beBytes 0) rest d
          (by simpa [List.append_assoc] using hd)
          (by simp [List.length_append, beBytes_length, hp]) hlen
        unfold AuthFlavor.from_cursor
        simp only [h1, PResult.ok_bind, h2]
        rw [if_neg (by simpa [List.isEmpty_iff] using hne)]
        unfold AuthFlavor.serialised_len Opaque.user_payload_len
        have : p + 4 + 4 + d.length + pad_length d.length =
            p + (4 + (4 + d.length + pad_length d.length)) := by omega
        rw [this]
  | AuthShort d =>
    have hlen : d.length ≤ 200 := hc
    refine ⟨beBytes 2 ++ Opaque.user_payload_bytes d, ?_, ?_, ?_⟩
    · unfold AuthFlavor.serialise_into
      rw [if_neg (by simp [AuthFlavor.associated_data_len]; omega)]
      rfl
    · simp [AuthFlavor.serialised_len, List.length_append, beBytes_length,
        Opaque.user_payload_bytes, Opaque.user_payload_len, List.length_replicate]
      omega
    · intro data p pre rest hd hp
      have h1 := readU32_at data p pre (Opaque.user_payload_bytes d ++ rest) 2
        (by simpa [List.append_assoc] using hd) hp (by norm_num)
      have h2 := from_wire_at data (p + 4) (pre ++ beBytes 2) rest d
        (by simpa [List.append_assoc] using hd)
        (by simp [List.length_append, beBytes_length, hp]) hlen
      unfold AuthFlavor.from_cursor
      simp only [h1, PResult.ok_bind, h2]
      unfold AuthFlavor.serialised_len Opaque.user_payload_len
      have : p + 4 + 4 + d.length + pad_length d.length =
          p + (4 + (4 + d.length + pad_length d.length)) := by omega
      rw [this]
  | Unknown i d =>
    have hc' : 2 < i ∧ i < 2 ^ 32 ∧ d.length ≤ 200 := hc
    obtain ⟨hgt, hlt, hlen⟩ := hc'
    refine ⟨beBytes i ++ Opaque.user_payload_bytes d, ?_, ?_, ?_⟩
    · unfold AuthFlavor.serialise_into
      rw [if_neg (by simp [AuthFlavor.associated_data_len]; omega)]
      rfl
    · simp [AuthFlavor.serialised_len, List.length_append, beBytes_length,
        Opaque.user_payload_bytes, Opaque.user_payload_len, List.length_replicate]
      omega
    · intro data p pre rest hd hp
      have h1 := readU32_at data p pre (Opaque.user_payload_bytes d ++ rest) i
        (by simpa [List.append_assoc] using hd) hp hlt
      have h2 := from_wire_at data (p + 4) (pre ++ beBytes i) rest d
        (by simpa [List.append_assoc] using hd)
        (by simp [List.length_append, beBytes_length, hp]) hlen
      obtain ⟨k, rfl⟩ : ∃ k, i = k + 3 := ⟨i - 3, by omega⟩
      unfold AuthFlavor.from_cursor
      simp only [h1, PResult.ok_bind]
      show (Opaque.from_wire data (p + 4) 200).bind _ = _
      simp only [h2, PResult.ok_bind]
      unfold AuthFlavor.serialised_len Opaque.user_payload_len
      have : p + 4 + 4 + d.length + pad_length d.length =
          p + (4 + (4 + d.length + pad_length d.length)) := by omega
      rw [this]
  | AuthUnix prm =>
    have hc' : prm.serialised_len ≤ 200 ∧ prm.Canonical := hc
    obtain ⟨hsl, hcp⟩ := hc'
    have hassoc : prm.associated_data_len ≤ 200 := by
      obtain ⟨stamp, nm, uid, gid, gs⟩ := prm
      have h1 : AuthUnixParams.serialised_len ⟨stamp, nm, uid, gid, gs⟩ =
          12 + (nm.length + pad_length nm.length) + 4 + (gs.length + 1) * 4 := rfl
      have h2 : AuthUnixParams.associated_data_len ⟨stamp, nm, uid, gid, gs⟩ =
          12 + nm.length + 4 * gs.length := rfl
      rw [h1] at hsl
      rw [h2]
      omega
    refine ⟨beBytes 1 ++ (beBytes prm.serialised_len ++ prm.serialise_into), ?_, ?_, ?_⟩
    · unfold AuthFlavor.serialise_into
      rw [if_neg (by simp only [AuthFlavor.associated_data_len]; omega)]
      rfl
    · simp only [AuthFlavor.serialised_len, List.length_append, beBytes_length,
        AuthUnixParams.serialise_into_length]
    · intro data p pre rest hd hp
      have h1 := readU32_at data p pre
        ((beBytes prm.serialised_len ++ prm.serialise_into) ++ rest) 1
        (by simpa [List.append_assoc] using hd) hp (by norm_num)
      have h2 := readU32_at data (p + 4) (pre ++ beBytes 1)
        (prm.serialise_into ++ rest) prm.serialised_len
        (by simpa [List.append_assoc] using hd)
        (by simp [List.length_append, beBytes_length, hp]) (by omega)
      have h3 := authUnixParams_at data (p + 4 + 4)
        (pre ++ beBytes 1 ++ beBytes prm.serialised_len) rest prm
        (by simpa [List.append_assoc] using hd)
        (by simp [List.length_append, beBytes_length, hp]) hcp
      unfold AuthFlavor.from_cursor
      simp only [h1, PResult.ok_bind, h2, if_neg (by omega : ¬ prm.serialised_len > 200), h3]
      unfold AuthFlavor.serialised_len
      have : p + 4 + 4 + prm.serialised_len = p + (4 + (4 + prm.serialised_len)) := by omega
      rw [this]

/-! ## Round trips of the remaining components -/

theorem drop_eq_of_append (data pre rest : List Nat) (n : Nat)
    (hd : data = pre ++ rest) (hn : n = pre.length) : data.drop n = rest := by
  subst hd hn
  exact List.drop_left pre rest

theorem authError_encode_decode (e : AuthError) (data : List Nat) (p : Nat)
    (pre rest : List Nat)
    (hd : data = pre ++ (beBytes e.wire_id ++ rest)) (hp : p = pre.length) :
    AuthError.from_cursor data p = .ok (e, p + 4) := by
  cases e <;>
    · have h1 := readU32_at data p pre rest _ hd hp (by norm_num [AuthError.wire_id])
      unfold AuthError.from_cursor
      simp only [AuthError.wire_id] at h1
      simp only [h1, PResult.ok_bind]

theorem rejectedReply_encode_decode (r : RejectedReply) (hc : r.Canonical) :
    r.serialise_into.length = r.serialised_len ∧
      ∀ (data : List Nat) (p : Nat) (pre rest : List Nat),
        data = pre ++ (r.serialise_into ++ rest) → p = pre.length →
        RejectedReply.from_cursor data p = .ok (r, p + r.serialised_len) := by
  cases r with
  | RpcVersionMismatch low high =>
    have hc' : low < 2 ^ 32 ∧ high < 2 ^ 32 := hc
    obtain ⟨hl, hh⟩ := hc'
    constructor
    · simp [RejectedReply.serialise_into, RejectedReply.serialised_len,
        List.length_append, beBytes_length]
    · intro data p pre rest hd hp
      simp only [RejectedReply.serialise_into] at hd
      have h1 := readU32_at data p pre (beBytes low ++ (beBytes high ++ rest)) 0
        (by simpa [List.append_assoc] using hd) hp (by norm_num)
      have h2 := readU32_at data (p + 4) (pre ++ beBytes 0) (beBytes high ++ rest) low
        (by simpa [List.append_assoc] using hd)
        (by simp [List.length_append, beBytes_length, hp]) hl
      have h3 := readU32_at data (p + 4 + 4) (pre ++ beBytes 0 ++ beBytes low) rest high
        (by simpa [List.append_assoc] using hd)
        (by simp [List.length_append, beBytes_length, hp]) hh
      unfold RejectedReply.from_cursor
      simp only [h1, PResult.ok_bind, h2, h3]
      unfold RejectedReply.serialised_len
      have : p + 4 + 4 + 4 = p + (4 + (4 + 4)) := by omega
      rw [this]
  | AuthErrorR e =>
    constructor
    · simp [RejectedReply.serialise_into, RejectedReply.serialised_len,
        AuthError.serialised_len, List.length_append, beBytes_length]
    · intro data p pre rest hd hp
      simp only [RejectedReply.serialise_into] at hd
      have h1 := readU32_at data p pre (beBytes e.wire_id ++ rest) 1
        (by simpa [List.append_assoc] using hd) hp (by norm_num)
      have h2 := authError_encode_decode e data (p + 4) (pre ++ beBytes 1) rest
        (by simpa [List.append_assoc] using hd)
        (by simp [List.length_append, beBytes_length, hp])
      unfold RejectedReply.from_cursor
      simp only [h1, PResult.ok_bind, h2, PResult.ok_bind]
      unfold RejectedReply.serialised_len AuthError.serialised_len
      have : p + 4 + 4 = p + (4 + 4) := by omega
      rw [this]

theorem acceptedStatus_encode_decode (s : AcceptedStatus) (hc : s.Canonical) :
    s.serialise_into.length = s.serialised_len ∧
      ∀ (data : List Nat) (p : Nat) (pre : List Nat),
        data = pre ++ s.serialise_into → p = pre.length →
        ∃ q, AcceptedStatus.from_cursor data p = .ok (s, q) := by
  cases s with
  | Success payload =>
    constructor
    · simp only [AcceptedStatus.serialise_into, AcceptedStatus.serialised_len,
        List.length_append, beBytes_length]
    · intro data p pre hd hp
      simp only [AcceptedStatus.serialise_into] at hd
      have h1 := readU32_at data p pre payload 0
        (by simpa [List.append_assoc] using hd) hp (by norm_num)
      have h2 : data.drop (p + 4) = payload :=
        drop_eq_of_append data (pre ++ beBytes 0) payload (p + 4)
          (by simpa [List.append_assoc] using hd)
          (by simp [List.length_append, beBytes_length, hp])
      refine ⟨p + 4, ?_⟩
      unfold AcceptedStatus.from_cursor
      simp only [h1, PResult.ok_bind, h2]
  | ProgramUnavailable =>
    refine ⟨by simp [AcceptedStatus.serialise_into, AcceptedStatus.serialised_len,
      beBytes_length], ?_⟩
    intro data p pre hd hp
    simp only [AcceptedStatus.serialise_into] at hd
    have h1 := readU32_at data p pre [] 1
      (by simpa [List.append_assoc] using hd) hp (by norm_num)
    exact ⟨p + 4, by unfold AcceptedStatus.from_cursor; simp only [h1, PResult.ok_bind]⟩
  | ProgramMismatch low high =>
    have hc' : low < 2 ^ 32 ∧ high < 2 ^ 32 := hc
    obtain ⟨hl, hh⟩ := hc'
    constructor
    · simp [AcceptedStatus.serialise_into, AcceptedStatus.serialised_len,
        List.length_append, beBytes_length]
    · intro data p pre hd hp
      simp only [AcceptedStatus.serialise_into] at hd
      have h1 := readU32_at data p pre (beBytes low ++ beBytes high) 2
        (by simpa [List.append_assoc] using hd) hp (by norm_num)
      have h2 := readU32_at data (p + 4) (pre ++ beBytes 2) (beBytes high) low
        (by simpa [List.append_assoc] using hd)
        (by simp [List.length_append, beBytes_length, hp]) hl
      have h3 := readU32_at data (p + 4 + 4) (pre ++ beBytes 2 ++ beBytes low) [] high
        (by simpa [List.append_assoc] using hd)
        (by simp [List.length_append, beBytes_length, hp]) hh
      exact ⟨p + 4 + 4 + 4, by
        unfold AcceptedStatus.from_cursor
        simp only [h1, PResult.ok_bind, h2, h3]⟩
  | ProcedureUnavailable =>
    refine ⟨by simp [AcceptedStatus.serialise_into, AcceptedStatus.serialised_len,
      beBytes_length], ?_⟩
    intro data p pre hd hp
    simp only [AcceptedStatus.serialise_into] at hd
    have h1 := readU32_at data p pre [] 3
      (by simpa [List.append_assoc] using hd) hp (by norm_num)
    exact ⟨p + 4, by unfold AcceptedStatus.from_cursor; simp only [h1, PResult.ok_bind]⟩
  | GarbageArgs =>
    refine ⟨by simp [AcceptedStatus.serialise_into, AcceptedStatus.serialised_len,
      beBytes_length], ?_⟩
    intro data p pre hd hp
    simp only [AcceptedStatus.serialise_into] at hd
    have h1 := readU32_at data p pre [] 4
      (by simpa [List.append_assoc] using hd) hp (by norm_num)
    exact ⟨p + 4, by unfold AcceptedStatus.from_cursor; simp only [h1, PResult.ok_bind]⟩
  | SystemError =>
    refine ⟨by simp [AcceptedStatus.serialise_into, AcceptedStatus.serialised_len,
      beBytes_length], ?_⟩
    intro data p pre hd hp
    simp only [AcceptedStatus.serialise_into] at hd
    have h1 := readU32_at data p pre [] 5
      (by simpa [List.append_assoc] using hd) hp (by norm_num)
    exact ⟨p + 4, by unfold AcceptedStatus.from_cursor; simp only [h1, PResult.ok_bind]⟩

theorem acceptedReply_encode_decode (r : AcceptedReply)
    (hcv : r.auth_verifier.Canonical) (hcs : r.status.Canonical) :
    ∃ w, r.serialise_into = .ok w ∧ w.length = r.serialised_len ∧
      ∀ (data : List Nat) (p : Nat) (pre : List Nat),
        data = pre ++ w → p = pre.length →
        ∃ q, AcceptedReply.from_cursor data p = .ok (r, q) := by
  obtain ⟨verf, status⟩ := r
  obtain ⟨wv, hv_enc, hv_len, hv_dec⟩ := authFlavor_encode_decode verf hcv
  obtain ⟨hs_len, hs_dec⟩ := acceptedStatus_encode_decode status hcs
  refine ⟨wv ++ status.serialise_into, ?_, ?_, ?_⟩
  · unfold AcceptedReply.serialise_into
    simp only [hv_enc, WResult.bind]
  · simp only [List.length_append, hv_len, hs_len]
    rfl
  · intro data p pre hd hp
    have h1 := hv_dec data p pre status.serialise_into
      (by simpa [List.append_assoc] using hd) hp
    obtain ⟨q2, h2⟩ := hs_dec data (p + AuthFlavor.serialised_len verf) (pre ++ wv)
      (by simpa [List.append_assoc] using hd)
      (by simp only [List.length_append, hv_len, hp])
    refine ⟨q2, ?_⟩
    unfold AcceptedReply.from_cursor
    simp only [h1, PResult.ok_bind, h2]

theorem replyBody_encode_decode (rb : ReplyBody) (hc : rb.Canonical) :
    ∃ w, rb.serialise_into = .ok w ∧ w.length = rb.serialised_len ∧
      ∀ (data : List Nat) (p : Nat) (pre : List Nat),
        data = pre ++ w → p = pre.length →
        ∃ q, ReplyBody.from_cursor data p = .ok (rb, q) := by
  cases rb with
  | Accepted r =>
    have hc' : r.auth_verifier.Canonical ∧ r.status.Canonical := hc
    obtain ⟨wr, hr_enc, hr_len, hr_dec⟩ := acceptedReply_encode_decode r hc'.1 hc'.2
    refine ⟨beBytes 0 ++ wr, ?_, ?_, ?_⟩
    · unfold ReplyBody.serialise_into
      simp only [hr_enc, WResult.bind]
    · simp only [List.length_append, beBytes_length, hr_len, ReplyBody.serialised_len]
    · intro data p pre hd hp
      have h1 := readU32_at data p pre wr 0
        (by simpa [List.append_assoc] using hd) hp (by norm_num)
      obtain ⟨q2, h2⟩ := hr_dec data (p + 4) (pre ++ beBytes 0)
        (by simpa [List.append_assoc] using hd)
        (by simp [List.length_append, beBytes_length, hp])
      refine ⟨q2, ?_⟩
      unfold ReplyBody.from_cursor
      simp only [h1, PResult.ok_bind, h2, PResult.ok_bind]
  | Denied r =>
    have hc' : r.Canonical := hc
    obtain ⟨hr_len, hr_dec⟩ := rejectedReply_encode_decode r hc'
    refine ⟨beBytes 1 ++ r.serialise_into, ?_, ?_, ?_⟩
    · unfold ReplyBody.serialise_into
      rfl
    · simp only [List.length_append, beBytes_length, hr_len, ReplyBody.serialised_len]
    · intro data p pre hd hp
      have h1 := readU32_at data p pre (r.serialise_into) 1
        (by simpa [List.append_assoc] using hd) hp (by norm_num)
      have h2 := hr_dec data (p + 4) (pre ++ beBytes 1) []
        (by simpa [List.append_assoc] using hd)
        (by simp [List.length_append, beBytes_length, hp])
      refine ⟨p + 4 + r.serialised_len, ?_⟩
      unfold ReplyBody.from_cursor
      simp only [h1, PResult.ok_bind, h2, PResult.ok_bind]

theorem callBody_encode_decode (b : CallBody) (hc : b.Canonical) :
    ∃ w, b.serialise_into = .ok w ∧ w.length = b.serialised_len ∧
      ∀ (data : List Nat) (p : Nat) (pre : List Nat),
        data = pre ++ w → p = pre.length →
        ∃ q, CallBody.from_cursor data p = .ok (b, q) := by
  obtain ⟨program, program_version, procedure, cred, verf, payload⟩ := b
  have hc' : program < 2 ^ 32 ∧ program_version < 2 ^ 32 ∧ procedure < 2 ^ 32 ∧
      cred.Canonical ∧ verf.Canonical := hc
  obtain ⟨hprog, hpv, hproc, hcc, hcv⟩ := hc'
  obtain ⟨wc, hc_enc, hc_len, hc_dec⟩ := authFlavor_encode_decode cred hcc
  obtain ⟨wv, hv_enc, hv_len, hv_dec⟩ := authFlavor_encode_decode verf hcv
  refine ⟨beBytes 2 ++ beBytes program ++ beBytes program_version ++ beBytes procedure ++
    wc ++ wv ++ payload, ?_, ?_, ?_⟩
  · unfold CallBody.serialise_into
    simp only [hc_enc, hv_enc, WResult.bind]
  · simp only [List.length_append, beBytes_length, hc_len, hv_len, CallBody.serialised_len]
  · intro data p pre hd hp
    have h0 := readU32_at data p pre
      (beBytes program ++ (beBytes program_version ++ (beBytes procedure ++
        (wc ++ (wv ++ payload))))) 2
      (by simpa [List.append_assoc] using hd) hp (by norm_num)
    have h1 := readU32_at data (p + 4) (pre ++ beBytes 2)
      (beBytes program_version ++ (beBytes procedure ++ (wc ++ (wv ++ payload)))) program
      (by simpa [List.append_assoc] using hd)
      (by simp [List.length_append, beBytes_length, hp]) hprog
    have h2 := readU32_at data (p + 4 + 4) (pre ++ beBytes 2 ++ beBytes program)
      (beBytes procedure ++ (wc ++ (wv ++ payload))) program_version
      (by simpa [List.append_assoc] using hd)
      (by simp [List.length_append, beBytes_length, hp]) hpv
    have h3 := readU32_at data (p + 4 + 4 + 4)
      (pre ++ beBytes 2 ++ beBytes program ++ beBytes program_version)
      (wc ++ (wv ++ payload)) procedure
      (by simpa [List.append_assoc] using hd)
      (by simp [List.length_append, beBytes_length, hp]) hproc
    have h4 := hc_dec data (p + 4 + 4 + 4 + 4)
      (pre ++ beBytes 2 ++ beBytes program ++ beBytes program_version ++ beBytes procedure)
      (wv ++ payload)
      (by simpa [List.append_assoc] using hd)
      (by simp [List.length_append, beBytes_length, hp])
    have h5 := hv_dec data (p + 4 + 4 + 4 + 4 + cred.serialised_len)
      (pre ++ beBytes 2 ++ beBytes program ++ beBytes program_version ++ beBytes procedure
        ++ wc)
      payload
      (by simpa [List.append_assoc] using hd)
      (by simp only [List.length_append, beBytes_length, hc_len, hp])
    have h6 : data.drop (p + 4 + 4 + 4 + 4 + cred.serialised_len + verf.serialised_len) =
        payload :=
      drop_eq_of_append data
        (pre ++ beBytes 2 ++ beBytes program ++ beBytes program_version ++ beBytes procedure
          ++ wc ++ wv)
        payload _
        (by simpa [List.append_assoc] using hd)
        (by simp only [List.length_append, beBytes_length, hc_len, hv_len, hp])
    refine ⟨p + 4 + 4 + 4 + 4 + cred.serialised_len + verf.serialised_len, ?_⟩
    unfold CallBody.from_cursor
    simp only [h0, PResult.ok_bind, if_neg (by norm_num : ¬ (2 : Nat) ≠ 2), h1, h2, h3, h4,
      h5, h6]

theorem messageType_encode_decode (mt : MessageType) (hc : mt.Canonical) :
    ∃ w, mt.serialise_into = .ok w ∧ w.length = mt.serialised_len ∧
      ∀ (data : List Nat) (p : Nat) (pre : List Nat),
        data = pre ++ w → p = pre.length →
        ∃ q, MessageType.from_cursor data p = .ok (mt, q) := by
  cases mt with
  | Call b =>
    obtain ⟨wb, hb_enc, hb_len, hb_dec⟩ := callBody_encode_decode b hc
    refine ⟨beBytes 0 ++ wb, ?_, ?_, ?_⟩
    · unfold MessageType.serialise_into
      simp only [hb_enc, WResult.bind]
    · simp only [List.length_append, beBytes_length, hb_len, MessageType.serialised_len]
      omega
    · intro data p pre hd hp
      have h1 := readU32_at data p pre wb 0
        (by simpa [List.append_assoc] using hd) hp (by norm_num)
      obtain ⟨q2, h2⟩ := hb_dec data (p + 4) (pre ++ beBytes 0)
        (by simpa [List.append_assoc] using hd)
        (by simp [List.length_append, beBytes_length, hp])
      refine ⟨q2, ?_⟩
      unfold MessageType.from_cursor
      simp only [h1, PResult.ok_bind, h2, PResult.ok_bind]
  | Reply rb =>
    obtain ⟨wb, hb_enc, hb_len, hb_dec⟩ := replyBody_encode_decode rb hc
    refine ⟨beBytes 1 ++ wb, ?_, ?_, ?_⟩
    · unfold MessageType.serialise_into
      simp only [hb_enc, WResult.bind]
    · simp only [List.length_append, beBytes_length, hb_len, MessageType.serialised_len]
      omega
    · intro data p pre hd hp
      have h1 := readU32_at data p pre wb 1
        (by simpa [List.append_assoc] using hd) hp (by norm_num)
      obtain ⟨q2, h2⟩ := hb_dec data (p + 4) (pre ++ beBytes 1)
        (by simpa [List.append_assoc] using hd)
        (by simp [List.length_append, beBytes_length, hp])
      refine ⟨q2, ?_⟩
      unfold MessageType.from_cursor
      simp only [h1, PResult.ok_bind, h2, PResult.ok_bind]

/-! ## Full-message round trip -/

theorem messageType_len_ge (mt : MessageType) : 4 ≤ mt.serialised_len := by
  cases mt <;> simp [MessageType.serialised_len]

theorem expected_message_len_at (hdr : Nat) (rest : List Nat)
    (h1 : hdr < 2 ^ 32) (h2 : 2 ^ 31 ≤ hdr) :
    expected_message_len (beBytes hdr ++ rest) = .ok (hdr % 2 ^ 31 + 4) := by
  unfold expected_message_len
  simp only [beBytes, List.cons_append, List.nil_append]
  rw [beU32_beBytes h1, if_neg (by omega)]

theorem unwrap_header_at (data : List Nat) (hdr : Nat) (rest : List Nat)
    (hd : data = beBytes hdr ++ rest) (h1 : hdr < 2 ^ 32) (h2 : 2 ^ 31 ≤ hdr)
    (hlen : data.length = hdr % 2 ^ 31 + 4) :
    unwrap_header data = .ok rest := by
  subst hd
  unfold unwrap_header
  rw [expected_message_len_at hdr rest h1 h2]
  rw [PResult.ok_bind, if_neg (by omega)]
  have : (beBytes hdr ++ rest).drop 4 = rest :=
    drop_eq_of_append _ (beBytes hdr) rest 4 rfl (beBytes_length hdr).symm
  rw [this]

theorem rpcMessage_encode_decode (m : RpcMessage) (hc : m.Canonical)
    (hlen : m.serialised_len < 2 ^ 31) :
    ∃ out, m.serialise = .ok out ∧ out.length = m.serialised_len ∧
      RpcMessage.from_bytes out = .ok m := by
  obtain ⟨xid, mt⟩ := m
  have hc' : xid < 2 ^ 32 ∧ mt.Canonical := hc
  obtain ⟨hxid, hmt⟩ := hc'
  obtain ⟨w, hw_enc, hw_len, hw_dec⟩ := messageType_encode_decode mt hmt
  have hL : RpcMessage.serialised_len ⟨xid, mt⟩ = mt.serialised_len + 4 + 4 := rfl
  have hge := messageType_len_ge mt
  rw [hL] at hlen ⊢
  have hmod : (mt.serialised_len + 4 + 4) % 2 ^ 32 = mt.serialised_len + 4 + 4 :=
    Nat.mod_eq_of_lt (by omega)
  have hhw : headerWord (mt.serialised_len + 4 + 4) = 2 ^ 31 + (mt.serialised_len + 4) := by
    unfold headerWord
    rw [hmod]
    have hbase : (mt.serialised_len + 4 + 4 + (2 ^ 32 - 4)) % 2 ^ 32 =
        mt.serialised_len + 4 := by omega
    simp only [hbase]
    rw [if_pos (by omega)]
    omega
  refine ⟨beBytes (headerWord (mt.serialised_len + 4 + 4)) ++ beBytes xid ++ w, ?_, ?_, ?_⟩
  · unfold RpcMessage.serialise
    rw [hL, if_neg (by omega), hw_enc]
    rfl
  · simp only [List.length_append, beBytes_length, hw_len]
    omega
  · have hhdr_lt : headerWord (mt.serialised_len + 4 + 4) < 2 ^ 32 := by
      rw [hhw]; omega
    have hhdr_ge : 2 ^ 31 ≤ headerWord (mt.serialised_len + 4 + 4) := by
      rw [hhw]; omega
    have hout_len : (beBytes (headerWord (mt.serialised_len + 4 + 4)) ++ beBytes xid ++
        w).length = headerWord (mt.serialised_len + 4 + 4) % 2 ^ 31 + 4 := by
      simp only [List.length_append, beBytes_length, hw_len, hhw]
      omega
    have huh := unwrap_header_at _ (headerWord (mt.serialised_len + 4 + 4))
      (beBytes xid ++ w) (by simp [List.append_assoc]) hhdr_lt hhdr_ge hout_len
    have hxid_read := readU32_at (beBytes xid ++ w) 0 [] w xid (by simp) rfl hxid
    obtain ⟨q, hq⟩ := hw_dec (beBytes xid ++ w) 4 (beBytes xid) rfl (beBytes_length xid).symm
    unfold RpcMessage.from_bytes
    rw [huh]
    simp only [PResult.ok_bind, hxid_read, Nat.zero_add, hq]
    rw [if_neg]
    · simp only [List.length_append, beBytes_length, hw_len, hL, hmod, hhw]
      omega

/-! ## Inversion: decoded values are canonical and size-bounded -/

theorem pad_length_le (l : Nat) : pad_length l ≤ 3 := by
  unfold pad_length
  split <;> omega

theorem readU32s_ok {data : List Nat} : ∀ {pos n : Nat} {gs : List Nat} {p' : Nat},
    readU32s data pos n = .ok (gs, p') →
    gs.length = n ∧ (∀ g ∈ gs, g < 2 ^ 32) ∧ p' = pos + 4 * n := by
  intro pos n
  induction n generalizing pos with
  | zero =>
    intro gs p' h
    simp only [readU32s] at h
    cases h
    simp
  | succ k ih =>
    intro gs p' h
    unfold readU32s at h
    rw [PResult.bind_eq_ok] at h
    obtain ⟨⟨v, p⟩, hv, h⟩ := h
    rw [PResult.bind_eq_ok] at h
    obtain ⟨⟨vs, p2⟩, hvs, h⟩ := h
    cases h
    obtain ⟨hvlt, rfl⟩ := readU32_ok hv
    obtain ⟨hlen, hall, rfl⟩ := ih hvs
    refine ⟨by simp [hlen], ?_, by omega⟩
    intro g hg
    rcases List.mem_cons.mp hg with rfl | hg
    · exact hvlt
    · exact hall g hg

theorem authUnixParams_from_cursor_ok {data : List Nat} {pos elen : Nat}
    {prm : AuthUnixParams} {p' : Nat}
    (h : AuthUnixParams.from_cursor data pos elen = .ok (prm, p')) :
    prm.Canonical ∧ prm.serialised_len = elen ∧ p' = pos + elen := by
  unfold AuthUnixParams.from_cursor at h
  rw [PResult.bind_eq_ok] at h
  obtain ⟨⟨stamp, p1⟩, hstamp, h⟩ := h
  dsimp only at h
  rw [PResult.bind_eq_ok] at h
  obtain ⟨⟨nm, p2⟩, hnm, h⟩ := h
  dsimp only at h
  split at h
  · cases h
  next hnmle =>
    rw [PResult.bind_eq_ok] at h
    obtain ⟨⟨uid, p3⟩, huid, h⟩ := h
    dsimp only at h
    rw [PResult.bind_eq_ok] at h
    obtain ⟨⟨gid, p4⟩, hgid, h⟩ := h
    dsimp only at h
    rw [PResult.bind_eq_ok] at h
    obtain ⟨⟨gc, p5⟩, hgc, h⟩ := h
    dsimp only at h
    split at h
    next hgcle =>
      rw [PResult.bind_eq_ok] at h
      obtain ⟨⟨gs, p6⟩, hgs, h⟩ := h
      dsimp only at h
      split at h
      · cases h
      next hconsumed =>
        cases h
        obtain ⟨hstamp_lt, rfl⟩ := readU32_ok hstamp
        obtain ⟨hnm_lt, rfl⟩ := tryFrom_ok hnm
        obtain ⟨huid_lt, rfl⟩ := readU32_ok huid
        obtain ⟨hgid_lt, rfl⟩ := readU32_ok hgid
        obtain ⟨hgc_lt, rfl⟩ := readU32_ok hgc
        obtain ⟨hgs_len, hgs_all, rfl⟩ := readU32s_ok hgs
        have hsl : AuthUnixParams.serialised_len ⟨stamp, nm, uid, gid, gs⟩ =
            12 + (nm.length + pad_length nm.length) + 4 + (gs.length + 1) * 4 := rfl
        refine ⟨⟨hstamp_lt, huid_lt, hgid_lt, (by omega : nm.length ≤ 255),
          (by omega : gs.length ≤ 16), hgs_all⟩, ?_, ?_⟩
        · rw [hsl]; omega
        · omega
    · cases h

theorem authFlavor_from_cursor_ok {data : List Nat} {pos : Nat} {f : AuthFlavor} {p' : Nat}
    (h : AuthFlavor.from_cursor data pos = .ok (f, p')) :
    f.Canonical ∧ f.serialised_len ≤ 212 := by
  unfold AuthFlavor.from_cursor at h
  rw [PResult.bind_eq_ok] at h
  obtain ⟨⟨v, p⟩, hv, h⟩ := h
  obtain ⟨hvlt, rfl⟩ := readU32_ok hv
  rcases v with _ | (_ | (_ | v))
  · -- AUTH_NONE
    replace h : (Opaque.from_wire data (pos + 4) 200).bind (fun x =>
        if x.1.isEmpty then .ok (.AuthNone none, x.2)
        else .ok (.AuthNone (some x.1), x.2)) = .ok (f, p') := h
    rw [PResult.bind_eq_ok] at h
    obtain ⟨⟨payload, p1⟩, hw, h⟩ := h
    obtain ⟨hple, rfl⟩ := from_wire_ok hw
    split at h <;> cases h
    · exact ⟨trivial, by simp only [AuthFlavor.serialised_len]; omega⟩
    next hne =>
      have hlen := pad_length_le payload.length
      refine ⟨⟨?_, hple⟩, ?_⟩
      · simpa [List.isEmpty_iff] using hne
      · simp only [AuthFlavor.serialised_len, Opaque.user_payload_len]
        omega
  · -- AUTH_UNIX
    replace h : (readU32 data (pos + 4)).bind (fun x =>
        if x.1 > 200 then .err .InvalidLength
        else (AuthUnixParams.from_cursor data x.2 x.1).bind fun y =>
          .ok (.AuthUnix y.1, y.2)) = .ok (f, p') := h
    rw [PResult.bind_eq_ok] at h
    obtain ⟨⟨len, p1⟩, hlen, h⟩ := h
    split at h
    · cases h
    next hle =>
      rw [PResult.bind_eq_ok] at h
      obtain ⟨⟨prm, p2⟩, hprm, h⟩ := h
      dsimp only at h hprm
      cases h
      obtain ⟨hcan, hsl, rfl⟩ := authUnixParams_from_cursor_ok hprm
      refine ⟨⟨by omega, hcan⟩, ?_⟩
      simp only [AuthFlavor.serialised_len]
      omega
  · -- AUTH_SHORT
    replace h : (Opaque.from_wire data (pos + 4) 200).bind (fun x =>
        .ok (.AuthShort x.1, x.2)) = .ok (f, p') := h
    rw [PResult.bind_eq_ok] at h
    obtain ⟨⟨payload, p1⟩, hw, h⟩ := h
    obtain ⟨hple, rfl⟩ := from_wire_ok hw
    cases h
    have hlen := pad_length_le payload.length
    refine ⟨hple, ?_⟩
    simp only [AuthFlavor.serialised_len, Opaque.user_payload_len]
    omega
  · -- unknown discriminator
    replace h : (Opaque.from_wire data (pos + 4) 200).bind (fun x =>
        .ok (.Unknown (v + 1 + 1 + 1) x.1, x.2)) = .ok (f, p') := h
    rw [PResult.bind_eq_ok] at h
    obtain ⟨⟨payload, p1⟩, hw, h⟩ := h
    obtain ⟨hple, rfl⟩ := from_wire_ok hw
    cases h
    have hlen := pad_length_le payload.length
    refine ⟨⟨by omega, by omega, hple⟩, ?_⟩
    simp only [AuthFlavor.serialised_len, Opaque.user_payload_len]
    omega

theorem acceptedStatus_from_cursor_ok {data : List Nat} {pos : Nat} {s : AcceptedStatus}
    {p' : Nat} (h : AcceptedStatus.from_cursor data pos = .ok (s, p')) :
    s.Canonical ∧ s.serialised_len ≤ 12 + data.length := by
  unfold AcceptedStatus.from_cursor at h
  rw [PResult.bind_eq_ok] at h
  obtain ⟨⟨v, p⟩, hv, h⟩ := h
  obtain ⟨hvlt, rfl⟩ := readU32_ok hv
  rcases v with _ | (_ | (_ | (_ | (_ | (_ | v)))))
  · replace h : (PResult.ok (AcceptedStatus.Success (data.drop (pos + 4)), pos + 4) :
        PResult (AcceptedStatus × Nat)) = .ok (s, p') := h
    cases h
    have : (data.drop (pos + 4)).length ≤ data.length := by
      simp [List.length_drop]
    exact ⟨trivial, by simp only [AcceptedStatus.serialised_len]; omega⟩
  · replace h : (PResult.ok (AcceptedStatus.ProgramUnavailable, pos + 4) :
        PResult (AcceptedStatus × Nat)) = .ok (s, p') := h
    cases h
    exact ⟨trivial, by simp only [AcceptedStatus.serialised_len]; omega⟩
  · replace h : ((readU32 data (pos + 4)).bind fun x =>
        (readU32 data x.2).bind fun y =>
          .ok (AcceptedStatus.ProgramMismatch x.1 y.1, y.2)) = .ok (s, p') := h
    rw [PResult.bind_eq_ok] at h
    obtain ⟨⟨low, p1⟩, hlow, h⟩ := h
    rw [PResult.bind_eq_ok] at h
    obtain ⟨⟨high, p2⟩, hhigh, h⟩ := h
    cases h
    obtain ⟨hlow_lt, rfl⟩ := readU32_ok hlow
    obtain ⟨hhigh_lt, rfl⟩ := readU32_ok hhigh
    exact ⟨⟨hlow_lt, hhigh_lt⟩, by simp only [AcceptedStatus.serialised_len]; omega⟩
  · replace h : (PResult.ok (AcceptedStatus.ProcedureUnavailable, pos + 4) :
        PResult (AcceptedStatus × Nat)) = .ok (s, p') := h
    cases h
    exact ⟨trivial, by simp only [AcceptedStatus.serialised_len]; omega⟩
  · replace h : (PResult.ok (AcceptedStatus.GarbageArgs, pos + 4) :
        PResult (AcceptedStatus × Nat)) = .ok (s, p') := h
    cases h
    exact ⟨trivial, by simp only [AcceptedStatus.serialised_len]; omega⟩
  · replace h : (PResult.ok (AcceptedStatus.SystemError, pos + 4) :
        PResult (AcceptedStatus × Nat)) = .ok (s, p') := h
    cases h
    exact ⟨trivial, by simp only [AcceptedStatus.serialised_len]; omega⟩
  · replace h : (PResult.err (.InvalidReplyStatus (v + 6)) :
        PResult (AcceptedStatus × Nat)) = .ok (s, p') := h
    cases h

theorem rejectedReply_from_cursor_ok {data : List Nat} {pos : Nat} {r : RejectedReply}
    {p' : Nat} (h : RejectedReply.from_cursor data pos = .ok (r, p')) :
    r.Canonical ∧ r.serialised_len ≤ 12 := by
  unfold RejectedReply.from_cursor at h
  rw [PResult.bind_eq_ok] at h
  obtain ⟨⟨v, p⟩, hv, h⟩ := h
  dsimp only at h
  obtain ⟨hvlt, rfl⟩ := readU32_ok hv
  rcases v with _ | (_ | v)
  · replace h : ((readU32 data (pos + 4)).bind fun x =>
        (readU32 data x.2).bind fun y =>
          .ok (RejectedReply.RpcVersionMismatch x.1 y.1, y.2)) = .ok (r, p') := h
    rw [PResult.bind_eq_ok] at h
    obtain ⟨⟨low, p1⟩, hlow, h⟩ := h
    dsimp only at h
    rw [PResult.bind_eq_ok] at h
    obtain ⟨⟨high, p2⟩, hhigh, h⟩ := h
    dsimp only at h
    cases h
    obtain ⟨hlow_lt, rfl⟩ := readU32_ok hlow
    obtain ⟨hhigh_lt, rfl⟩ := readU32_ok hhigh
    exact ⟨⟨hlow_lt, hhigh_lt⟩, by simp only [RejectedReply.serialised_len]; omega⟩
  · replace h : ((AuthError.from_cursor data (pos + 4)).bind fun x =>
        .ok (RejectedReply.AuthErrorR x.1, x.2)) = .ok (r, p') := h
    rw [PResult.bind_eq_ok] at h
    obtain ⟨⟨e, p1⟩, he, h⟩ := h
    dsimp only at h
    cases h
    exact ⟨trivial, by
      simp only [RejectedReply.serialised_len, AuthError.serialised_len]; omega⟩
  · replace h : (PResult.err (.InvalidRejectedReplyType (v + 2)) :
        PResult (RejectedReply × Nat)) = .ok (r, p') := h
    cases h

theorem acceptedReply_from_cursor_ok {data : List Nat} {pos : Nat} {r : AcceptedReply}
    {p' : Nat} (h : AcceptedReply.from_cursor data pos = .ok (r, p')) :
    r.auth_verifier.Canonical ∧ r.status.Canonical ∧
      r.serialised_len ≤ 224 + data.length := by
  unfold AcceptedReply.from_cursor at h
  rw [PResult.bind_eq_ok] at h
  obtain ⟨⟨verf, p1⟩, hverf, h⟩ := h
  dsimp only at h
  rw [PResult.bind_eq_ok] at h
  obtain ⟨⟨status, p2⟩, hstatus, h⟩ := h
  dsimp only at h
  cases h
  obtain ⟨hfc, hfl⟩ := authFlavor_from_cursor_ok hverf
  obtain ⟨hsc, hsl⟩ := acceptedStatus_from_cursor_ok hstatus
  refine ⟨hfc, hsc, ?_⟩
  have hrfl : AcceptedReply.serialised_len ⟨verf, status⟩ =
      verf.serialised_len + status.serialised_len := rfl
  omega

theorem replyBody_from_cursor_ok {data : List Nat} {pos : Nat} {rb : ReplyBody}
    {p' : Nat} (h : ReplyBody.from_cursor data pos = .ok (rb, p')) :
    rb.Canonical ∧ rb.serialised_len ≤ 228 + data.length := by
  unfold ReplyBody.from_cursor at h
  rw [PResult.bind_eq_ok] at h
  obtain ⟨⟨v, p⟩, hv, h⟩ := h
  dsimp only at h
  obtain ⟨hvlt, rfl⟩ := readU32_ok hv
  rcases v with _ | (_ | v)
  · replace h : ((AcceptedReply.from_cursor data (pos + 4)).bind fun x =>
        .ok (ReplyBody.Accepted x.1, x.2)) = .ok (rb, p') := h
    rw [PResult.bind_eq_ok] at h
    obtain ⟨⟨r, p1⟩, hr, h⟩ := h
    dsimp only at h
    cases h
    obtain ⟨h1, h2, h3⟩ := acceptedReply_from_cursor_ok hr
    exact ⟨⟨h1, h2⟩, by simp only [ReplyBody.serialised_len]; omega⟩
  · replace h : ((RejectedReply.from_cursor data (pos + 4)).bind fun x =>
        .ok (ReplyBody.Denied x.1, x.2)) = .ok (rb, p') := h
    rw [PResult.bind_eq_ok] at h
    obtain ⟨⟨r, p1⟩, hr, h⟩ := h
    dsimp only at h
    cases h
    obtain ⟨h1, h2⟩ := rejectedReply_from_cursor_ok hr
    exact ⟨h1, by simp only [ReplyBody.serialised_len]; omega⟩
  · replace h : (PResult.err (.InvalidReplyType (v + 2)) :
        PResult (ReplyBody × Nat)) = .ok (rb, p') := h
    cases h

theorem callBody_from_cursor_ok {data : List Nat} {pos : Nat} {b : CallBody} {p' : Nat}
    (h : CallBody.from_cursor data pos = .ok (b, p')) :
    b.Canonical ∧ b.serialised_len ≤ 440 + data.length := by
  unfold CallBody.from_cursor at h
  rw [PResult.bind_eq_ok] at h
  obtain ⟨⟨ver, p0⟩, hver, h⟩ := h
  dsimp only at h
  split at h
  · cases h
  next hver2 =>
    rw [PResult.bind_eq_ok] at h
    obtain ⟨⟨program, p1⟩, hprog, h⟩ := h
    dsimp only at h
    rw [PResult.bind_eq_ok] at h
    obtain ⟨⟨program_version, p2⟩, hpv, h⟩ := h
    dsimp only at h
    rw [PResult.bind_eq_ok] at h
    obtain ⟨⟨procedure, p3⟩, hproc, h⟩ := h
    dsimp only at h
    rw [PResult.bind_eq_ok] at h
    obtain ⟨⟨cred, p4⟩, hcred, h⟩ := h
    dsimp only at h
    rw [PResult.bind_eq_ok] at h
    obtain ⟨vp5, hverf, h⟩ := h
    cases h
    obtain ⟨hprog_lt, rfl⟩ := readU32_ok hprog
    obtain ⟨hpv_lt, rfl⟩ := readU32_ok hpv
    obtain ⟨hproc_lt, rfl⟩ := readU32_ok hproc
    obtain ⟨hcc, hcl⟩ := authFlavor_from_cursor_ok hcred
    have hverf' : AuthFlavor.from_cursor data p4 = .ok (vp5.1, vp5.2) := hverf
    obtain ⟨hvc, hvl⟩ := authFlavor_from_cursor_ok hverf'
    have hpay : (data.drop vp5.2).length ≤ data.length := by
      simp [List.length_drop]
    refine ⟨⟨hprog_lt, hpv_lt, hproc_lt, hcc, hvc⟩, ?_⟩
    have hrfl : CallBody.serialised_len ⟨program, program_version, procedure, cred, vp5.1,
        data.drop vp5.2⟩ = 4 * 4 + cred.serialised_len + AuthFlavor.serialised_len vp5.1 +
        (data.drop vp5.2).length := rfl
    omega

theorem messageType_from_cursor_ok {data : List Nat} {pos : Nat} {mt : MessageType}
    {p' : Nat} (h : MessageType.from_cursor data pos = .ok (mt, p')) :
    mt.Canonical ∧ mt.serialised_len ≤ 444 + data.length := by
  unfold MessageType.from_cursor at h
  rw [PResult.bind_eq_ok] at h
  obtain ⟨⟨v, p⟩, hv, h⟩ := h
  dsimp only at h
  obtain ⟨hvlt, rfl⟩ := readU32_ok hv
  rcases v with _ | (_ | v)
  · replace h : ((CallBody.from_cursor data (pos + 4)).bind fun x =>
        .ok (MessageType.Call x.1, x.2)) = .ok (mt, p') := h
    rw [PResult.bind_eq_ok] at h
    obtain ⟨⟨b, p1⟩, hb, h⟩ := h
    dsimp only at h
    cases h
    obtain ⟨h1, h2⟩ := callBody_from_cursor_ok hb
    exact ⟨h1, by simp only [MessageType.serialised_len]; omega⟩
  · replace h : ((ReplyBody.from_cursor data (pos + 4)).bind fun x =>
        .ok (MessageType.Reply x.1, x.2)) = .ok (mt, p') := h
    rw [PResult.bind_eq_ok] at h
    obtain ⟨⟨b, p1⟩, hb, h⟩ := h
    dsimp only at h
    cases h
    obtain ⟨h1, h2⟩ := replyBody_from_cursor_ok hb
    exact ⟨h1, by simp only [MessageType.serialised_len]; omega⟩
  · replace h : (PResult.err (.InvalidMessageType (v + 2)) :
        PResult (MessageType × Nat)) = .ok (mt, p') := h
    cases h

theorem expected_message_len_ok {buf : List Nat} {want : Nat}
    (h : expected_message_len buf = .ok want) : want ≤ 2 ^ 31 + 3 := by
  unfold expected_message_len at h
  split at h
  · dsimp only at h
    split at h
    · cases h
    · cases h
      omega
  · cases h

theorem unwrap_header_ok {buf data : List Nat}
    (h : unwrap_header buf = .ok data) :
    data = buf.drop 4 ∧ buf.length ≤ 2 ^ 31 + 3 := by
  unfold unwrap_header at h
  rw [PResult.bind_eq_ok] at h
  obtain ⟨want, hw, h⟩ := h
  have hbound := expected_message_len_ok hw
  split at h
  · cases h
  next hlen =>
    cases h
    exact ⟨rfl, by omega⟩

theorem from_bytes_ok {buf : List Nat} {m : RpcMessage}
    (h : RpcMessage.from_bytes buf = .ok m) :
    m.Canonical ∧ m.serialised_len % 2 ^ 32 = buf.length ∧
      m.serialised_len = buf.length := by
  unfold RpcMessage.from_bytes at h
  rw [PResult.bind_eq_ok] at h
  obtain ⟨data, hdata, h⟩ := h
  rw [PResult.bind_eq_ok] at h
  obtain ⟨⟨xid, p1⟩, hxid, h⟩ := h
  dsimp only at h
  rw [PResult.bind_eq_ok] at h
  obtain ⟨⟨mt, p2⟩, hmt, h⟩ := h
  dsimp only at h
  split at h
  · cases h
  next hcheck =>
    cases h
    obtain ⟨hdd, hblen⟩ := unwrap_header_ok hdata
    obtain ⟨hxid_lt, rfl⟩ := readU32_ok hxid
    obtain ⟨hmtc, hmtl⟩ := messageType_from_cursor_ok hmt
    have hdlen : data.length ≤ buf.length := by
      rw [hdd]
      simp [List.length_drop]
    have hsl : RpcMessage.serialised_len ⟨xid, mt⟩ = mt.serialised_len + 4 + 4 := rfl
    have hlt : RpcMessage.serialised_len ⟨xid, mt⟩ < 2 ^ 32 := by omega
    refine ⟨⟨hxid_lt, hmtc⟩, ?_, ?_⟩ <;> omega

/-! ## Encoders write exactly `serialised_len` bytes and fail only as
modelled -/

theorem user_payload_bytes_length (d : List Nat) :
    (Opaque.user_payload_bytes d).length = Opaque.user_payload_len d := by
  simp only [Opaque.user_payload_bytes, Opaque.user_payload_len, List.length_append,
    beBytes_length, List.length_replicate]

theorem authFlavor_serialise_ok (f : AuthFlavor) (h : f.associated_data_len ≤ 200) :
    ∃ w, f.serialise_into = .ok w ∧ w.length = f.serialised_len := by
  unfold AuthFlavor.serialise_into
  rw [if_neg (by omega)]
  refine ⟨_, rfl, ?_⟩
  cases f with
  | AuthNone od =>
    cases od with
    | none =>
      simp [AuthFlavor.serialised_len, beBytes_length, List.length_append]
    | some d =>
      simp only [AuthFlavor.serialised_len, beBytes_length, List.length_append,
        user_payload_bytes_length]
  | AuthUnix p =>
    simp only [AuthFlavor.serialised_len, beBytes_length, List.length_append,
      AuthUnixParams.serialise_into_length]
  | AuthShort d =>
    simp only [AuthFlavor.serialised_len, beBytes_length, List.length_append,
      user_payload_bytes_length]
  | Unknown i d =>
    simp only [AuthFlavor.serialised_len, beBytes_length, List.length_append,
      user_payload_bytes_length]

theorem authFlavor_serialise_ne_err (f : AuthFlavor) : f.serialise_into ≠ .err := by
  unfold AuthFlavor.serialise_into
  split <;> simp

theorem acceptedStatus_serialise_length (s : AcceptedStatus) :
    s.serialise_into.length = s.serialised_len := by
  cases s <;>
    simp [AcceptedStatus.serialise_into, AcceptedStatus.serialised_len,
      List.length_append, beBytes_length]

theorem rejectedReply_serialise_length (r : RejectedReply) :
    r.serialise_into.length = r.serialised_len := by
  cases r <;>
    simp [RejectedReply.serialise_into, RejectedReply.serialised_len,
      AuthError.serialised_len, List.length_append, beBytes_length]

theorem acceptedReply_serialise_ok (r : AcceptedReply)
    (h : r.auth_verifier.associated_data_len ≤ 200) :
    ∃ w, r.serialise_into = .ok w ∧ w.length = r.serialised_len := by
  obtain ⟨wv, hv_enc, hv_len⟩ := authFlavor_serialise_ok r.auth_verifier h
  refine ⟨wv ++ r.status.serialise_into, ?_, ?_⟩
  · unfold AcceptedReply.serialise_into
    simp only [hv_enc, WResult.bind]
  · simp only [List.length_append, hv_len, acceptedStatus_serialise_length]
    rfl

theorem acceptedReply_serialise_ne_err (r : AcceptedReply) : r.serialise_into ≠ .err := by
  unfold AcceptedReply.serialise_into
  cases hv : r.auth_verifier.serialise_into with
  | ok w => simp [hv, WResult.bind]
  | err => exact absurd hv (authFlavor_serialise_ne_err _)
  | panics => simp [hv, WResult.bind]

theorem replyBody_serialise_ok (rb : ReplyBody) (h : (MessageType.Reply rb).authDataBounded) :
    ∃ w, rb.serialise_into = .ok w ∧ w.length = rb.serialised_len := by
  cases rb with
  | Accepted r =>
    have h' : r.auth_verifier.associated_data_len ≤ 200 := h
    obtain ⟨wr, hr_enc, hr_len⟩ := acceptedReply_serialise_ok r h'
    refine ⟨beBytes 0 ++ wr, ?_, ?_⟩
    · unfold ReplyBody.serialise_into
      simp only [hr_enc, WResult.bind]
    · simp only [List.length_append, beBytes_length, hr_len, ReplyBody.serialised_len]
  | Denied r =>
    refine ⟨beBytes 1 ++ r.serialise_into, rfl, ?_⟩
    simp only [List.length_append, beBytes_length, rejectedReply_serialise_length,
      ReplyBody.serialised_len]

theorem replyBody_serialise_ne_err (rb : ReplyBody) : rb.serialise_into ≠ .err := by
  cases rb with
  | Accepted r =>
    unfold ReplyBody.serialise_into
    cases hr : r.serialise_into with
    | ok w => simp [hr, WResult.bind]
    | err => exact absurd hr (acceptedReply_serialise_ne_err _)
    | panics => simp [hr, WResult.bind]
  | Denied r =>
    unfold ReplyBody.serialise_into
    simp

theorem callBody_serialise_ok (b : CallBody)
    (h1 : b.auth_credentials.associated_data_len ≤ 200)
    (h2 : b.auth_verifier.associated_data_len ≤ 200) :
    ∃ w, b.serialise_into = .ok w ∧ w.length = b.serialised_len := by
  obtain ⟨wc, hc_enc, hc_len⟩ := authFlavor_serialise_ok b.auth_credentials h1
  obtain ⟨wv, hv_enc, hv_len⟩ := authFlavor_serialise_ok b.auth_verifier h2
  refine ⟨beBytes 2 ++ beBytes b.program ++ beBytes b.program_version ++
    beBytes b.procedure ++ wc ++ wv ++ b.payload, ?_, ?_⟩
  · unfold CallBody.serialise_into
    simp only [hc_enc, hv_enc, WResult.bind]
  · simp only [List.length_append, beBytes_length, hc_len, hv_len, CallBody.serialised_len]

theorem callBody_serialise_ne_err (b : CallBody) : b.serialise_into ≠ .err := by
  unfold CallBody.serialise_into
  cases hc : b.auth_credentials.serialise_into with
  | ok w =>
    simp only [hc, WResult.bind]
    cases hv : b.auth_verifier.serialise_into with
    | ok w2 => simp [hv, WResult.bind]
    | err => exact absurd hv (authFlavor_serialise_ne_err _)
    | panics => simp [hv, WResult.bind]
  | err => exact absurd hc (authFlavor_serialise_ne_err _)
  | panics => simp [hc, WResult.bind]

theorem messageType_serialise_ok (mt : MessageType) (h : mt.authDataBounded) :
    ∃ w, mt.serialise_into = .ok w ∧ w.length = mt.serialised_len := by
  cases mt with
  | Call b =>
    have h' : b.auth_credentials.associated_data_len ≤ 200 ∧
        b.auth_verifier.associated_data_len ≤ 200 := h
    obtain ⟨wb, hb_enc, hb_len⟩ := callBody_serialise_ok b h'.1 h'.2
    refine ⟨beBytes 0 ++ wb, ?_, ?_⟩
    · unfold MessageType.serialise_into
      simp only [hb_enc, WResult.bind]
    · simp only [List.length_append, beBytes_length, hb_len, MessageType.serialised_len]
      omega
  | Reply rb =>
    obtain ⟨wb, hb_enc, hb_len⟩ := replyBody_serialise_ok rb h
    refine ⟨beBytes 1 ++ wb, ?_, ?_⟩
    · unfold MessageType.serialise_into
      simp only [hb_enc, WResult.bind]
    · simp only [List.length_append, beBytes_length, hb_len, MessageType.serialised_len]
      omega

theorem messageType_serialise_ne_err (mt : MessageType) : mt.serialise_into ≠ .err := by
  cases mt with
  | Call b =>
    unfold MessageType.serialise_into
    cases hb : b.serialise_into with
    | ok w => simp [hb, WResult.bind]
    | err => exact absurd hb (callBody_serialise_ne_err _)
    | panics => simp [hb, WResult.bind]
  | Reply rb =>
    unfold MessageType.serialise_into
    cases hb : rb.serialise_into with
    | ok w => simp [hb, WResult.bind]
    | err => exact absurd hb (replyBody_serialise_ne_err _)
    | panics => simp [hb, WResult.bind]

theorem rpcMessage_serialise_ok (m : RpcMessage) (hb : m.authDataBounded)
    (hlen : m.serialised_len % 2 ^ 32 < 2 ^ 31) :
    ∃ out, m.serialise = .ok out ∧ out.length = m.serialised_len := by
  obtain ⟨w, hw_enc, hw_len⟩ := messageType_serialise_ok m.message_type hb
  refine ⟨beBytes (headerWord m.serialised_len) ++ beBytes m.xid ++ w, ?_, ?_⟩
  · unfold RpcMessage.serialise
    rw [if_neg (by omega), hw_enc]
    rfl
  · simp only [List.length_append, beBytes_length, hw_len]
    have : m.serialised_len = m.message_type.serialised_len + 4 + 4 := rfl
    omega

/-! ## Claim theorems -/

/-- C1 (counterexample): the byte-fidelity half of the round-trip claim
fails on a buffer with non-zero XDR padding: `exPadBuf` decodes
successfully, but re-encoding the decoded message writes the padding as
zeros and so does not reproduce the input bytes. -/
theorem c1_encode_decode_not_identity :
    RpcMessage.from_bytes exPadBuf = .ok exPadMsg ∧
    exPadMsg.serialise = .ok exPadOut ∧ exPadOut ≠ exPadBuf := by
  refine ⟨by decide, by decide, by decide⟩

/-- C1 (amended): `decode (encode m) = m` for every canonical message
below the 2^31 size bound (canonical: `u32` fields in range, gids and
auth payloads within capacity, present `AuthNone` payloads non-empty,
`Unknown` ids distinct from the assigned discriminators); and for every
buffer that decodes successfully (and is below the 2^31 bound, above
which re-encoding is refused), re-encoding yields a buffer of the same
length that decodes to the same message — it reproduces the original
bytes exactly when the original's padding bytes were zero, and differs
otherwise (see the counterexample). -/
theorem c1_roundtrip_amended :
    (∀ m : RpcMessage, m.Canonical → m.serialised_len < 2 ^ 31 →
      ∃ out, m.serialise = .ok out ∧ out.length = m.serialised_len ∧
        RpcMessage.from_bytes out = .ok m) ∧
    (∀ (b : List Nat) (m : RpcMessage), RpcMessage.from_bytes b = .ok m →
      b.length < 2 ^ 31 →
      ∃ out, m.serialise = .ok out ∧ out.length = b.length ∧
        RpcMessage.from_bytes out = .ok m) := by
  constructor
  · exact rpcMessage_encode_decode
  · intro b m hdec hblen
    obtain ⟨hcan, hmod, hexact⟩ := from_bytes_ok hdec
    obtain ⟨out, h1, h2, h3⟩ := rpcMessage_encode_decode m hcan (by omega)
    exact ⟨out, h1, by omega, h3⟩

/-- C2 (failing input): `overrunBuf` is length-consistent with its
fragment header, but its AUTH_UNIX machine-name length prefix (255)
overruns the 44-byte buffer; `Opaque::try_from` slices
`&data[start..end]` without a bounds check, so decoding panics instead
of returning `InvalidLength`. -/
theorem c2_overrun_panics : RpcMessage.from_bytes overrunBuf = .panics := by decide

/-- C3 (counterexample): decoding does not fail on non-zero padding:
`exPadBuf` carries the padding bytes 1, 2, 3 in an opaque field and
decodes successfully (the `Error` type has no `InvalidPaddingData`
variant at all). -/
theorem c3_padding_not_rejected : RpcMessage.from_bytes exPadBuf = .ok exPadMsg := by
  decide

/-- C3 (amended): decoding an XDR opaque skips its padding bytes
without inspecting them: whatever the padding's content, the field
decodes to its payload and the cursor advances past the padding. -/
theorem c3_padding_ignored (pre body padding post : List Nat)
    (hpad : padding.length = pad_length body.length) (hlt : body.length < 2 ^ 32) :
    Opaque.tryFrom (pre ++ ((beBytes body.length ++ (body ++ padding)) ++ post))
        pre.length =
      .ok (body, pad_length body.length + (pre.length + 4 + body.length)) :=
  tryFrom_at _ pre.length pre post body padding rfl rfl hlt hpad

/-- C3 (witness): the opaque field `len = 1, data = [171]` followed by
the non-zero padding `7, 7, 7` decodes successfully to its payload. -/
theorem c3_padding_ignored_witness :
    Opaque.tryFrom [0, 0, 0, 1, 171, 7, 7, 7] 0 = .ok ([171], 8) :=
  c3_padding_ignored [] [171] [7, 7, 7] [] (by decide) (by decide)

/-- C4: the outer length is enforced twice.  First, a buffer whose
header (last-fragment bit set) declares a body length different from
`buffer.len() - 4` fails with `IncompleteMessage {buffer_len, expected}`
before any parsing.  Second, when the envelope check passes but the
fully-parsed message's recomputed `serialised_len()` differs from the
buffer length, decoding fails with `IncompleteMessage` carrying the
recomputed length.  The concrete conjuncts are spec scenario 5 (a
16-byte buffer declaring 284 body bytes) and the repository's 39-byte
fuzz regression (nested lengths totalling 28). -/
theorem c4_double_length_check :
    (∀ (b0 b1 b2 b3 : Nat) (rest : List Nat),
      2 ^ 31 ≤ beU32 b0 b1 b2 b3 →
      (b0 :: b1 :: b2 :: b3 :: rest).length ≠ beU32 b0 b1 b2 b3 % 2 ^ 31 + 4 →
      RpcMessage.from_bytes (b0 :: b1 :: b2 :: b3 :: rest) =
        .err (.IncompleteMessage (b0 :: b1 :: b2 :: b3 :: rest).length
          (beU32 b0 b1 b2 b3 % 2 ^ 31 + 4))) ∧
    (∀ (buf data : List Nat) (xid : Nat) (mt : MessageType) (q : Nat),
      unwrap_header buf = .ok data → readU32 data 0 = .ok (xid, 4) →
      MessageType.from_cursor data 4 = .ok (mt, q) →
      (RpcMessage.mk xid mt).serialised_len % 2 ^ 32 ≠ buf.length →
      RpcMessage.from_bytes buf =
        .err (.IncompleteMessage buf.length
          ((RpcMessage.mk xid mt).serialised_len % 2 ^ 32))) ∧
    RpcMessage.from_bytes shortBuf = .err (.IncompleteMessage 16 288) ∧
    RpcMessage.from_bytes fuzz39Buf = .err (.IncompleteMessage 39 28) := by
  refine ⟨?_, ?_, by decide, by decide⟩
  · intro b0 b1 b2 b3 rest hbit hne
    unfold RpcMessage.from_bytes unwrap_header expected_message_len
    dsimp only
    rw [if_neg (by omega)]
    rw [PResult.ok_bind, if_pos (by simpa using hne)]
    rfl
  · intro buf data xid mt q huw hxid hmt hne
    unfold RpcMessage.from_bytes
    rw [huw, PResult.ok_bind, hxid, PResult.ok_bind]
    dsimp only
    rw [hmt, PResult.ok_bind]
    dsimp only
    rw [if_pos hne]

/-- C5: a buffer of at least 4 bytes whose fragment header has the
last-fragment bit clear fails with `Fragmented` whatever follows, and a
buffer shorter than 4 bytes fails with `IncompleteHeader`.  The
concrete conjuncts are spec scenarios 3 and 4. -/
theorem c5_fragment_and_incomplete_header :
    (∀ (b0 b1 b2 b3 : Nat) (rest : List Nat),
      beU32 b0 b1 b2 b3 < 2 ^ 31 →
      RpcMessage.from_bytes (b0 :: b1 :: b2 :: b3 :: rest) = .err .Fragmented) ∧
    (∀ buf : List Nat, buf.length < 4 →
      RpcMessage.from_bytes buf = .err .IncompleteHeader) ∧
    RpcMessage.from_bytes fragBuf = .err .Fragmented ∧
    RpcMessage.from_bytes [128] = .err .IncompleteHeader := by
  refine ⟨?_, ?_, by decide, by decide⟩
  · intro b0 b1 b2 b3 rest hbit
    unfold RpcMessage.from_bytes unwrap_header expected_message_len
    dsimp only
    rw [if_pos hbit]
    rfl
  · intro buf hlen
    match buf, hlen with
    | [], _ => rfl
    | [a], _ => rfl
    | [a, b], _ => rfl
    | [a, b, c], _ => rfl
    | a :: b :: c :: d :: t, hlen =>
      exfalso
      simp only [List.length_cons] at hlen
      omega

/-- C6: `AuthUnixParams::from_cursor` fails with `InvalidAuthData` in
exactly two cases: the gids count read from the wire exceeds 16, or the
body parses but the bytes consumed differ from the length the enclosing
`AuthFlavor` declared; every other failure surfaces a different error.
The concrete conjunct is spec scenario 6: an AUTH_UNIX flavor block
declaring `gids_count = 17` fails with `InvalidAuthData`. -/
theorem c6_invalid_auth_data_iff :
    (∀ (data : List Nat) (pos elen : Nat),
      AuthUnixParams.from_cursor data pos elen = .err .InvalidAuthData ↔
        ∃ stamp p1 nm p2 uid p3 gid p4 gc p5,
          readU32 data pos = .ok (stamp, p1) ∧
          Opaque.tryFrom data p1 = .ok (nm, p2) ∧ nm.length ≤ 255 ∧
          readU32 data p2 = .ok (uid, p3) ∧
          readU32 data p3 = .ok (gid, p4) ∧
          readU32 data p4 = .ok (gc, p5) ∧
          (16 < gc ∨ ∃ gs p6, readU32s data p5 gc = .ok (gs, p6) ∧ p6 - pos ≠ elen)) ∧
    AuthFlavor.from_cursor gids17Buf 0 = .err .InvalidAuthData := by
  refine ⟨?_, by decide⟩
  intro data pos elen
  constructor
  · intro h
    unfold AuthUnixParams.from_cursor at h
    cases h1 : readU32 data pos with
    | ok vp1 =>
      obtain ⟨stamp, p1⟩ := vp1
      simp only [h1, PResult.ok_bind] at h
      cases h2 : Opaque.tryFrom data p1 with
      | ok vp2 =>
        obtain ⟨nm, p2⟩ := vp2
        simp only [h2, PResult.ok_bind] at h
        split at h
        · cases h
        next hnm =>
          cases h3 : readU32 data p2 with
          | ok vp3 =>
            obtain ⟨uid, p3⟩ := vp3
            simp only [h3, PResult.ok_bind] at h
            cases h4 : readU32 data p3 with
            | ok vp4 =>
              obtain ⟨gid, p4⟩ := vp4
              simp only [h4, PResult.ok_bind] at h
              cases h5 : readU32 data p4 with
              | ok vp5 =>
                obtain ⟨gc, p5⟩ := vp5
                simp only [h5, PResult.ok_bind] at h
                refine ⟨stamp, p1, nm, p2, uid, p3, gid, p4, gc, p5,
                  rfl, h2, by omega, h3, h4, h5, ?_⟩
                split at h
                next hgc =>
                  cases h6 : readU32s data p5 gc with
                  | ok vp6 =>
                    obtain ⟨gs, p6⟩ := vp6
                    simp only [h6, PResult.ok_bind] at h
                    split at h
                    next hcons => exact Or.inr ⟨gs, p6, rfl, hcons⟩
                    · cases h
                  | err e =>
                    simp only [h6, PResult.err_bind] at h
                    cases h
                    exact absurd (readU32s_err h6) (by simp)
                  | panics => exact absurd h6 (readU32s_ne_panics data p5 gc)
                next hgc => exact Or.inl (by omega)
              | err e =>
                simp only [h5, PResult.err_bind] at h
                cases h
                exact absurd (readU32_err h5) (by simp)
              | panics => exact absurd h5 (readU32_ne_panics data p4)
            | err e =>
              simp only [h4, PResult.err_bind] at h
              cases h
              exact absurd (readU32_err h4) (by simp)
            | panics => exact absurd h4 (readU32_ne_panics data p3)
          | err e =>
            simp only [h3, PResult.err_bind] at h
            cases h
            exact absurd (readU32_err h3) (by simp)
          | panics => exact absurd h3 (readU32_ne_panics data p2)
      | err e =>
        simp only [h2, PResult.err_bind] at h
        cases h
        exact absurd (tryFrom_err h2) (by simp)
      | panics => simp only [h2, PResult.panics_bind] at h; cases h
    | err e =>
      simp only [h1, PResult.err_bind] at h
      cases h
      exact absurd (readU32_err h1) (by simp)
    | panics => exact absurd h1 (readU32_ne_panics data pos)
  · intro h
    obtain ⟨stamp, p1, nm, p2, uid, p3, gid, p4, gc, p5,
      h1, h2, hnm, h3, h4, h5, hlast⟩ := h
    unfold AuthUnixParams.from_cursor
    simp only [h1, PResult.ok_bind, h2, if_neg (by omega : ¬ nm.length > 255),
      h3, h4, h5]
    rcases hlast with hgc | ⟨gs, p6, h6, hcons⟩
    · rw [if_neg (by omega)]
    · by_cases hgc : gc ≤ 16
      · rw [if_pos hgc, h6, PResult.ok_bind, if_pos hcons]
      · rw [if_neg hgc]

/-- C7: a `CallBody` whose leading rpc-version word is not 2 fails to
decode with `InvalidRpcVersion` carrying that word; the `rpc_version()`
accessor is the constant 2 on every `CallBody`; and a full message with
version word 3 fails with `InvalidRpcVersion 3`. -/
theorem c7_rpc_version :
    (∀ (data : List Nat) (pos v : Nat), readU32 data pos = .ok (v, pos + 4) →
      v ≠ 2 → CallBody.from_cursor data pos = .err (.InvalidRpcVersion v)) ∧
    (∀ cb : CallBody, cb.rpc_version = 2) ∧
    RpcMessage.from_bytes ver3Buf = .err (.InvalidRpcVersion 3) := by
  refine ⟨?_, fun _ => rfl, by decide⟩
  intro data pos v hv hne
  unfold CallBody.from_cursor
  simp only [hv, PResult.ok_bind]
  rw [if_pos hne]

/-- C8 (counterexample): `bigAuthMsg` is 20 bytes of header and call
fields plus a 201-byte `AuthNone` payload — far below the 2^31 bound —
yet `serialise` panics on the `assert!(associated_data_len() <= 200)`
instead of succeeding as the claim requires. -/
theorem c8_below_bound_yet_panics :
    bigAuthMsg.serialised_len < 2 ^ 31 ∧ bigAuthMsg.serialise = .panics := by
  have hlen : bigAuthMsg.serialised_len = 248 := by
    simp [bigAuthMsg, RpcMessage.serialised_len, MessageType.serialised_len,
      CallBody.serialised_len, AuthFlavor.serialised_len, Opaque.user_payload_len,
      pad_length, List.length_replicate]
  have hcred : (AuthFlavor.AuthNone (some (List.replicate 201 (0 : Nat)))).serialise_into
      = .panics := by
    unfold AuthFlavor.serialise_into
    rw [if_pos (by norm_num [AuthFlavor.associated_data_len, List.length_replicate])]
  have hmt : bigAuthMsg.message_type.serialise_into = .panics := by
    show (MessageType.Call ⟨0, 0, 0, .AuthNone (some (List.replicate 201 0)),
      .AuthNone none, []⟩).serialise_into = .panics
    unfold MessageType.serialise_into CallBody.serialise_into
    dsimp only
    rw [hcred]
    rfl
  refine ⟨by omega, ?_⟩
  unfold RpcMessage.serialise
  rw [if_neg (by omega), hmt]
  rfl

/-- C8 (amended): `serialise_into` computes `serialised_len()` purely
and fails with an error — before writing anything — exactly when that
`u32` length (the total including the 4-byte fragment header, reduced
mod 2^32) has the last-fragment bit set; when it is below 2^31 and
every auth flavor's associated data is within the 200-byte `assert!`
bound, encoding succeeds. -/
theorem c8_length_guard :
    (∀ m : RpcMessage, m.serialise = .err ↔ 2 ^ 31 ≤ m.serialised_len % 2 ^ 32) ∧
    (∀ m : RpcMessage, m.serialised_len % 2 ^ 32 < 2 ^ 31 → m.authDataBounded →
      ∃ out, m.serialise = .ok out) := by
  constructor
  · intro m
    unfold RpcMessage.serialise
    split
    next hcond => exact iff_of_true rfl hcond
    next hcond =>
      constructor
      · intro h
        exfalso
        cases hmt : m.message_type.serialise_into with
        | ok w => rw [hmt, WResult.bind] at h; cases h
        | err => exact absurd hmt (messageType_serialise_ne_err _)
        | panics => rw [hmt, WResult.bind] at h; cases h
      · intro h
        omega
  · intro m hlen hb
    obtain ⟨out, hout, -⟩ := rpcMessage_serialise_ok m hb hlen
    exact ⟨out, hout⟩

/-- C9: every encoder writes exactly `serialised_len()` bytes —
`AuthUnixParams` unconditionally, `AuthFlavor` / `CallBody` /
`ReplyBody` under the 200-byte auth-data bound, and a whole
`RpcMessage` additionally below the 2^31 size bound; concretely, the
spec's scenario-2 parameters (16 gids, empty machine name) have an
84-byte body inside a 92-byte AUTH_UNIX flavor block. -/
theorem c9_written_equals_serialised_len :
    (∀ p : AuthUnixParams, p.serialise_into.length = p.serialised_len) ∧
    (∀ f : AuthFlavor, f.associated_data_len ≤ 200 →
      ∃ w, f.serialise_into = .ok w ∧ w.length = f.serialised_len) ∧
    (∀ b : CallBody, b.auth_credentials.associated_data_len ≤ 200 →
      b.auth_verifier.associated_data_len ≤ 200 →
      ∃ w, b.serialise_into = .ok w ∧ w.length = b.serialised_len) ∧
    (∀ rb : ReplyBody, (MessageType.Reply rb).authDataBounded →
      ∃ w, rb.serialise_into = .ok w ∧ w.length = rb.serialised_len) ∧
    (∀ m : RpcMessage, m.authDataBounded → m.serialised_len < 2 ^ 31 →
      ∃ out, m.serialise = .ok out ∧ out.length = m.serialised_len) ∧
    exampleParams.serialised_len = 84 ∧
    exampleParams.serialise_into.length = 84 ∧
    (AuthFlavor.AuthUnix exampleParams).serialised_len = 92 ∧
    (∃ w, (AuthFlavor.AuthUnix exampleParams).serialise_into = .ok w ∧ w.length = 92) := by
  refine ⟨AuthUnixParams.serialise_into_length, authFlavor_serialise_ok,
    callBody_serialise_ok, replyBody_serialise_ok, ?_, by decide, by decide, by decide, ?_⟩
  · intro m hb hlen
    exact rpcMessage_serialise_ok m hb (by omega)
  · obtain ⟨w, hw1, hw2⟩ := authFlavor_serialise_ok (.AuthUnix exampleParams) (by decide)
    exact ⟨w, hw1, by rw [hw2]; decide⟩

/-- C10: the `gids()` accessor returns `None` exactly on an empty
supplementary-gid list, otherwise `Some` of the stored values in their
stored order, and never `Some` of an empty list. -/
theorem c10_gids_accessor : ∀ p : AuthUnixParams,
    (p.gids_option = none ↔ p.gids = []) ∧
    (p.gids ≠ [] → p.gids_option = some p.gids) ∧
    p.gids_option ≠ some [] := by
  intro p
  unfold AuthUnixParams.gids_option
  split
  next h =>
    have hnil : p.gids = [] := List.length_eq_zero.mp h
    exact ⟨iff_of_true rfl hnil, fun hne => absurd hnil hne, by simp⟩
  next h =>
    have hne : p.gids ≠ [] := by
      intro hnil
      exact h (by simp [hnil])
    refine ⟨iff_of_false (by simp) hne, fun _ => rfl, ?_⟩
    intro hsome
    have : p.gids = [] := by
      simpa using hsome
    exact hne this

end OncRpc
